import Mathlib

/-!
Verification of the geospatial query-decomposition core of the APEX Project
Loader repository.  The Python sources are shallowly embedded: dynamically
typed nested-list geometry values become the inductive `PyGeom`, Python
floats become exact rationals (or reals where trigonometry is involved),
fallible remote calls become `Except`-valued parameters, and the retry
loops become well-founded recursions on their decreasing counters.
-/

namespace ApexLoader

/-- Dynamically typed nested-list geometry values as passed around by the
Python code (`district_queries.py`): a value is either a number or a list
of values.  Numbers are modelled as exact rationals. -/
inductive PyGeom where
  | num  (q : ℚ)
  | list (items : List PyGeom)

/-- `_is_point_pair` (district_queries.py): true iff the value is a
two-element list of numbers. -/
def is_point_pair : PyGeom → Bool
  | .list [.num _, .num _] => true
  | _ => false

/-- `_unique_preserve_order` (district_queries.py) with its accumulated
`seen` set made explicit.  The Python `None` skip cannot arise here because
the element type has no null value. -/
def uniqueScan {α : Type} [DecidableEq α] (seen : List α) : List α → List α
  | [] => []
  | x :: xs => if x ∈ seen then uniqueScan seen xs else x :: uniqueScan (x :: seen) xs

/-- `_unique_preserve_order` (district_queries.py): first-seen-order
deduplication. -/
def unique_preserve_order {α : Type} [DecidableEq α] (items : List α) : List α :=
  uniqueScan [] items

/-- `_split_string_values` (district_queries.py): normalize `<br>` variants
to newlines, split on runs of newline/semicolon, then on commas, strip and
drop empties.  Splitting on single separator characters and filtering the
empty pieces coincides with the Python regex split on `[\n;]+`. -/
def split_string_values (s : String) : List String :=
  if s = "" then []
  else
    let s1 := ((s.replace "<br>" "\n").replace "<br/>" "\n").replace "<br />" "\n"
    let parts := s1.split (fun c => c = '\n' || c = ';')
    ((parts.map (fun p => p.splitOn ",")).flatten.map String.trim).filter (fun q => q ≠ "")

/-- The slice taken by one iteration of the `_chunk_points` while-loop
(district_queries.py): `points[start:end]` with `end = min(start + m, n)`,
widened by one point to the left in the degenerate single-point case. -/
def chunkSeg {α : Type} (pts : List α) (m start : Nat) : List α :=
  let e := min (start + m) pts.length
  let seg := (pts.drop start).take (e - start)
  if seg.length = 1 ∧ 0 < start then (pts.drop (start - 1)).take (e - (start - 1)) else seg

/-- The `_chunk_points` while-loop (district_queries.py).  `m` is the chunk
bound already floored to at least 2; the loop advances `start` to
`end - overlap` with `overlap = 1`, so it terminates because `start`
strictly increases below `pts.length`. -/
def chunkLoop {α : Type} (pts : List α) (m start : Nat) (hm : 2 ≤ m) : List (List α) :=
  if pts.length ≤ min (start + m) pts.length then
    [chunkSeg pts m start]
  else
    chunkSeg pts m start :: chunkLoop pts m (min (start + m) pts.length - 1) hm
termination_by pts.length - start
decreasing_by omega

/-- The `if max_points < 2: max_points = 2` floor at the top of
`_chunk_points`. -/
def chunkFloor (maxPoints : Nat) : Nat :=
  if maxPoints < 2 then 2 else maxPoints

theorem two_le_chunkFloor (maxPoints : Nat) : 2 ≤ chunkFloor maxPoints := by
  unfold chunkFloor; split <;> omega

/-- `_chunk_points` (district_queries.py): split one path into point-count
bounded segments with one point of overlap between consecutive segments. -/
def chunk_points {α : Type} (pts : List α) (maxPoints : Nat) : List (List α) :=
  if pts.isEmpty then []
  else if pts.length ≤ chunkFloor maxPoints then [pts]
  else chunkLoop pts (chunkFloor maxPoints) 0 (two_le_chunkFloor maxPoints)

/-- Consecutive-chunk overlap invariant: the first element of each chunk
equals the last element of the chunk before it. -/
def overlapChain {α : Type} [DecidableEq α] : List (List α) → Bool
  | [] => true
  | [_] => true
  | c1 :: c2 :: rest => (c2.head? = c1.getLast? : Bool) && overlapChain (c2 :: rest)

theorem slice_getElem? {α : Type} (pts : List α) (s e i : Nat)
    (h1 : s ≤ i) (h2 : i < e) :
    ((pts.drop s).take (e - s))[i - s]? = pts[i]? := by
  rw [List.getElem?_take, if_pos (by omega : i - s < e - s), List.getElem?_drop]
  congr 1
  omega

theorem slice_mem {α : Type} (pts : List α) (s e i : Nat)
    (h1 : s ≤ i) (h2 : i < e) (h3 : i < pts.length) :
    pts[i] ∈ (pts.drop s).take (e - s) := by
  have h := slice_getElem? pts s e i h1 h2
  rw [List.getElem?_eq_getElem h3] at h
  exact List.getElem?_mem h

theorem slice_length {α : Type} (pts : List α) (s e : Nat) (he : e ≤ pts.length) :
    ((pts.drop s).take (e - s)).length = e - s := by
  rw [List.length_take, List.length_drop]
  omega

theorem slice_head? {α : Type} (pts : List α) (s e : Nat)
    (h1 : s < e) (_h2 : e ≤ pts.length) :
    ((pts.drop s).take (e - s)).head? = pts[s]? := by
  rw [List.head?_eq_getElem?]
  have := slice_getElem? pts s e s (Nat.le_refl s) h1
  simpa using this

theorem slice_getLast? {α : Type} (pts : List α) (s e : Nat)
    (h1 : s < e) (h2 : e ≤ pts.length) :
    ((pts.drop s).take (e - s)).getLast? = pts[e - 1]? := by
  rw [List.getLast?_eq_getElem?, slice_length pts s e h2]
  have := slice_getElem? pts s e (e - 1) (by omega) (by omega)
  have heq : e - 1 - s = e - s - 1 := by omega
  rw [heq] at this
  exact this

/-- Under the reachable-state invariant `start + 2 ≤ pts.length` the
degenerate one-point widening branch of `_chunk_points` is dead and each
loop iteration takes the plain slice `points[start:end]`. -/
theorem chunkSeg_eq_slice {α : Type} (pts : List α) (m start : Nat)
    (hm : 2 ≤ m) (hs : start + 2 ≤ pts.length) :
    chunkSeg pts m start =
      (pts.drop start).take (min (start + m) pts.length - start) := by
  unfold chunkSeg
  simp only
  rw [if_neg]
  intro hcon
  rw [slice_length pts start (min (start + m) pts.length) (by omega)] at hcon
  omega

/-- Combined invariant of the `_chunk_points` loop, proved by induction on
the remaining point count: every index from `start` on is covered by some
chunk, the first chunk starts at `pts[start]`, consecutive chunks overlap
in exactly the boundary point, and no chunk is empty. -/
theorem chunkLoop_spec {α : Type} [DecidableEq α]
    (pts : List α) (m : Nat) (hm : 2 ≤ m) :
    ∀ fuel start, pts.length - start ≤ fuel → start + 2 ≤ pts.length →
      (∀ i, start ≤ i → (hi : i < pts.length) →
        ∃ c ∈ chunkLoop pts m start hm, pts[i] ∈ c) ∧
      ((chunkLoop pts m start hm).head?.bind List.head? = pts[start]?) ∧
      overlapChain (chunkLoop pts m start hm) = true ∧
      (∀ c ∈ chunkLoop pts m start hm, c ≠ []) := by
  intro fuel
  induction fuel with
  | zero => intro start h1 h2; omega
  | succ k ih =>
    intro start h1 h2
    have hseg := chunkSeg_eq_slice pts m start hm h2
    have hemin : min (start + m) pts.length ≤ pts.length := by omega
    by_cases hend : pts.length ≤ min (start + m) pts.length
    · -- final iteration: a single chunk [start, pts.length)
      have he : min (start + m) pts.length = pts.length := by omega
      rw [chunkLoop, if_pos hend]
      refine ⟨?_, ?_, ?_, ?_⟩
      · intro i hle hi
        refine ⟨chunkSeg pts m start, List.mem_singleton.mpr rfl, ?_⟩
        rw [hseg, he]
        exact slice_mem pts start pts.length i hle hi hi
      · simp only [List.head?_cons, Option.some_bind]
        rw [hseg, he]
        exact slice_head? pts start pts.length (by omega) (by omega)
      · simp [overlapChain]
      · intro c hc
        rw [List.mem_singleton.mp hc, hseg, he]
        intro hcon
        have := slice_length pts start pts.length (Nat.le_refl _)
        rw [hcon] at this
        simp at this
        omega
    · -- intermediate iteration: emit the slice and recurse at `end - 1`
      have he : min (start + m) pts.length = start + m := by omega
      set e := min (start + m) pts.length with hedef
      have hlt : e < pts.length := by omega
      have hs2 : (e - 1) + 2 ≤ pts.length := by omega
      have hfuel : pts.length - (e - 1) ≤ k := by omega
      obtain ⟨ihcov, ihhead, ihchain, ihne⟩ := ih (e - 1) hfuel hs2
      rw [chunkLoop, if_neg hend]
      refine ⟨?_, ?_, ?_, ?_⟩
      · intro i hle hi
        by_cases hie : i < e
        · refine ⟨chunkSeg pts m start, List.mem_cons_self _ _, ?_⟩
          rw [hseg]
          exact slice_mem pts start e i hle hie hi
        · obtain ⟨c, hc, hmem⟩ := ihcov i (by omega) hi
          exact ⟨c, List.mem_cons_of_mem _ hc, hmem⟩
      · simp only [List.head?_cons, Option.some_bind]
        rw [hseg]
        exact slice_head? pts start e (by omega) (by omega)
      · -- the recursive chunk list is nonempty and starts at pts[e-1]
        obtain ⟨c2, rest2, hrest⟩ :
            ∃ c2 rest2, chunkLoop pts m (e - 1) hm = c2 :: rest2 := by
          cases hcl : chunkLoop pts m (e - 1) hm with
          | nil =>
            rw [hcl] at ihhead
            simp only [List.head?_nil, Option.none_bind] at ihhead
            have hlen : e - 1 < pts.length := by omega
            rw [List.getElem?_eq_getElem hlen] at ihhead
            exact absurd ihhead (by simp)
          | cons c2 rest2 => exact ⟨c2, rest2, rfl⟩
        rw [hrest]
        rw [hrest] at ihhead ihchain
        simp only [List.head?_cons, Option.some_bind] at ihhead
        unfold overlapChain
        rw [Bool.and_eq_true, decide_eq_true_iff]
        constructor
        · rw [ihhead, hseg]
          rw [slice_getLast? pts start e (by omega) (by omega)]
        · exact ihchain
      · intro c hc
        rcases List.mem_cons.mp hc with hc1 | hc2
        · rw [hc1, hseg]
          intro hcon
          have := slice_length pts start e (by omega)
          rw [hcon] at this
          simp at this
          omega
        · exact ihne c hc2

/-- C8: ChunkPlan coverage and overlap invariant.  For every non-empty path
and every chunk-size bound, `_chunk_points` produces chunks such that every
coordinate of the original path occurs in some chunk, the first coordinate
of each later chunk equals the last coordinate of the chunk before it, and
no chunk is empty. -/
theorem chunk_points_coverage_and_overlap {α : Type} [DecidableEq α]
    (pts : List α) (maxPoints : Nat) (hne : pts ≠ []) :
    (∀ p ∈ pts, ∃ c ∈ chunk_points pts maxPoints, p ∈ c) ∧
    overlapChain (chunk_points pts maxPoints) = true ∧
    (∀ c ∈ chunk_points pts maxPoints, c ≠ []) := by
  unfold chunk_points
  rw [if_neg (by simpa [List.isEmpty_iff] using hne)]
  by_cases hlen : pts.length ≤ chunkFloor maxPoints
  · rw [if_pos hlen]
    refine ⟨fun p hp => ⟨pts, List.mem_singleton.mpr rfl, hp⟩, by simp [overlapChain], ?_⟩
    intro c hc
    rw [List.mem_singleton.mp hc]
    exact hne
  · rw [if_neg hlen]
    have h2 : 0 + 2 ≤ pts.length := by
      have := two_le_chunkFloor maxPoints
      omega
    obtain ⟨hcov, hhead, hchain, hne2⟩ :=
      chunkLoop_spec pts (chunkFloor maxPoints) (two_le_chunkFloor maxPoints)
        pts.length 0 (by omega) h2
    refine ⟨?_, hchain, hne2⟩
    intro p hp
    obtain ⟨i, hi, hpi⟩ := List.mem_iff_getElem.mp hp
    obtain ⟨c, hc, hmem⟩ := hcov i (Nat.zero_le i) hi
    exact ⟨c, hc, hpi ▸ hmem⟩

/-- Witness for the C8 theorem at a concrete five-point path with chunk
bound 3. -/
theorem chunk_points_coverage_and_overlap_witness :
    ([1, 2, 3, 4, 5] : List ℕ) ≠ [] ∧
    ((∀ p ∈ ([1, 2, 3, 4, 5] : List ℕ), ∃ c ∈ chunk_points [1, 2, 3, 4, 5] 3, p ∈ c) ∧
      overlapChain (chunk_points ([1, 2, 3, 4, 5] : List ℕ) 3) = true ∧
      (∀ c ∈ chunk_points ([1, 2, 3, 4, 5] : List ℕ) 3, c ≠ [])) :=
  ⟨by decide, chunk_points_coverage_and_overlap [1, 2, 3, 4, 5] 3 (by decide)⟩

/-- `_extract_route_paths` branch C body (district_queries.py): collect the
paths of every route-shaped group, flattening one level of extra nesting.
Non-list and empty-list group members are skipped, exactly as the Python
`continue` does. -/
def flattenRouteGroups : List PyGeom → List PyGeom
  | [] => []
  | .num _ :: rest => flattenRouteGroups rest
  | .list [] :: rest => flattenRouteGroups rest
  | .list (m0 :: mrest) :: rest =>
      if is_point_pair m0 then .list (m0 :: mrest) :: flattenRouteGroups rest
      else
        match m0 with
        | .num _ => flattenRouteGroups rest
        | .list [] => flattenRouteGroups rest
        | .list (k0 :: krest) =>
            if is_point_pair k0 then
              (.list (k0 :: krest) :: mrest) ++ flattenRouteGroups rest
            else flattenRouteGroups rest

/-- `_extract_route_paths` (district_queries.py): normalize route geometry
into a list of path values plus the `is_route` flag. -/
def extract_route_paths : PyGeom → List PyGeom × Bool
  | .num _ => ([], false)
  | .list [] => ([], false)
  | .list (g0 :: rest) =>
      if is_point_pair g0 then ([.list (g0 :: rest)], true)
      else
        match g0 with
        | .num _ => ([], false)
        | .list [] => ([], false)
        | .list (h0 :: t0) =>
            if is_point_pair h0 then (.list (h0 :: t0) :: rest, true)
            else
              let ps := flattenRouteGroups (.list (h0 :: t0) :: rest)
              if ps.isEmpty then ([], false) else (ps, true)

/-- `_extract_polygon_rings` (district_queries.py): normalize boundary
geometry into a list of ring values plus the `is_polygon_like` flag. -/
def extract_polygon_rings : PyGeom → List PyGeom × Bool
  | .num _ => ([], false)
  | .list [] => ([], false)
  | .list (g0 :: rest) =>
      if is_point_pair g0 then ([.list (g0 :: rest)], true)
      else
        match g0 with
        | .num _ => ([], false)
        | .list [] => ([], false)
        | .list (h0 :: t0) =>
            if is_point_pair h0 then (.list (h0 :: t0) :: rest, true) else ([], false)

/-- The per-path loop of `_chunk_route_geometry` (district_queries.py):
chunk each path and wrap each segment back into list-of-paths shape.  A
non-list path value raises a Python `TypeError` inside the caller's
try-block, modelled as an `Except.error`; the number `0` is falsy in
Python, so `_chunk_points` returns `[]` for it before calling `len`. -/
def chunkPaths (m : Nat) : List PyGeom → Except String (List PyGeom)
  | [] => .ok []
  | p :: rest =>
      match p with
      | .list pts => do
          let restChunks ← chunkPaths m rest
          .ok ((chunk_points pts m).map (fun seg => PyGeom.list [PyGeom.list seg]) ++ restChunks)
      | .num q =>
          if q = 0 then chunkPaths m rest
          else .error "TypeError: object has no len()"

/-- `_chunk_route_geometry` (district_queries.py): chunk every path of a
route geometry, falling back to the whole geometry when nothing was
produced. -/
def chunk_route_geometry (routeGeom : PyGeom) (maxPoints : Nat) :
    Except String (List PyGeom) :=
  match extract_route_paths routeGeom with
  | (_, false) => .ok [routeGeom]
  | (paths, true) =>
      (chunkPaths maxPoints paths).map
        (fun chunks => if chunks.isEmpty then [routeGeom] else chunks)

/-- Outcome of `_agol_intersect_adaptive` (district_queries.py): a merged
result dictionary, the re-raised original remote failure, or one of the two
terminal chunking-exhausted RuntimeErrors. -/
inductive AdaptiveOutcome (V E : Type) where
  | ok (listValues : List V) (stringValues : String)
  | remoteFailure (e : E)
  | routeExhausted (minPoints : Nat)
  | polygonExhausted (maxSlices : Nat)
deriving DecidableEq

/-- The per-chunk loop shared by both chunking branches of
`_agol_intersect_adaptive`: call the remote collaborator on each chunk in
order, concatenating ids and split label strings; the first remote failure
aborts the whole attempt. -/
def callChunksLoop {V E : Type} (call : PyGeom → Except E (List V × String)) :
    List PyGeom → Except E (List V × List String)
  | [] => .ok ([], [])
  | g :: rest =>
      match call g with
      | .error e => .error e
      | .ok (ids, labels) =>
          match callChunksLoop call rest with
          | .error e => .error e
          | .ok (restIds, restLabels) =>
              .ok (ids ++ restIds, split_string_values labels ++ restLabels)

/-- The merged result dictionary built after a successful chunked attempt:
ids and labels deduplicated in first-seen order, labels joined with
a comma separator. -/
def mergedOutcome {V E : Type} [DecidableEq V] (ids : List V) (labels : List String) :
    AdaptiveOutcome V E :=
  .ok (unique_preserve_order ids) (String.intercalate ", " (unique_preserve_order labels))

/-- The route-chunking while-loop of `_agol_intersect_adaptive`
(district_queries.py): halve `current` until below `minPoints`; any
exception inside the loop body (chunking or a remote call) falls through to
the next halving.  Termination needs `1 ≤ minPoints`; with the Python
defaults `minPoints = 15`. -/
def routeChunkLadder {V E : Type} [DecidableEq V]
    (call : PyGeom → Except E (List V × String)) (geometry : PyGeom)
    (minPoints : Nat) (hmin : 1 ≤ minPoints) (current : Nat) :
    AdaptiveOutcome V E :=
  if minPoints ≤ current then
    match chunk_route_geometry geometry current with
    | .error _ => routeChunkLadder call geometry minPoints hmin (current / 2)
    | .ok chunks =>
        match callChunksLoop call chunks with
        | .error _ => routeChunkLadder call geometry minPoints hmin (current / 2)
        | .ok (ids, labels) => mergedOutcome ids labels
  else .routeExhausted minPoints
termination_by current
decreasing_by all_goals omega

/-- The polygon-slicing while-loop of `_agol_intersect_adaptive`
(district_queries.py): double `slices` until above `maxSlices`.  The
shapely-based `_slice_polygon_into_equal_parts` is an external collaborator
(GEOS); its behavior, including the exceptions it may raise, is the
`slicer` parameter. -/
def polygonSliceLadder {V E : Type} [DecidableEq V]
    (call : PyGeom → Except E (List V × String))
    (slicer : PyGeom → Nat → Except E (List PyGeom)) (geometry : PyGeom)
    (maxSlices : Nat) (slices : Nat) (hs : 1 ≤ slices) :
    AdaptiveOutcome V E :=
  if slices ≤ maxSlices then
    match slicer geometry slices with
    | .error _ => polygonSliceLadder call slicer geometry maxSlices (slices * 2) (by omega)
    | .ok pieces =>
        match callChunksLoop call pieces with
        | .error _ => polygonSliceLadder call slicer geometry maxSlices (slices * 2) (by omega)
        | .ok (ids, labels) => mergedOutcome ids labels
  else .polygonExhausted maxSlices
termination_by maxSlices + 1 - slices
decreasing_by all_goals omega

/-- `_agol_intersect_adaptive` (district_queries.py): try the full-geometry
remote call once; on failure fall back to route chunking, then polygon
slicing, else re-raise the original failure. -/
def agol_intersect_adaptive {V E : Type} [DecidableEq V]
    (call : PyGeom → Except E (List V × String))
    (slicer : PyGeom → Nat → Except E (List PyGeom))
    (geometry : PyGeom) (maxPoints minPoints : Nat) (hmin : 1 ≤ minPoints)
    (initialSlices maxSlices : Nat)
    (enableRouteChunking enablePolygonChunking : Bool) :
    AdaptiveOutcome V E :=
  match call geometry with
  | .ok (ids, labels) => .ok ids labels
  | .error fullError =>
      if enableRouteChunking && (extract_route_paths geometry).2 then
        routeChunkLadder call geometry minPoints hmin maxPoints
      else if enablePolygonChunking && (extract_polygon_rings geometry).2 then
        polygonSliceLadder call slicer geometry maxSlices (max 2 initialSlices) (by omega)
      else .remoteFailure fullError

/-- Total point count of a chunk in the list-of-paths shape
`[[p1, ..., pn]]` produced by `_chunk_route_geometry`. -/
def chunkPointCount : PyGeom → Nat
  | .list [.list seg] => seg.length
  | _ => 0

theorem chunkLoop_ne_nil {α : Type} (pts : List α) (m start : Nat) (hm : 2 ≤ m) :
    chunkLoop pts m start hm ≠ [] := by
  rw [chunkLoop]
  split <;> simp

theorem chunk_points_ne_nil {α : Type} (pts : List α) (maxPoints : Nat)
    (hne : pts ≠ []) : chunk_points pts maxPoints ≠ [] := by
  unfold chunk_points
  rw [if_neg (by simpa [List.isEmpty_iff] using hne)]
  split
  · simp
  · exact chunkLoop_ne_nil pts _ 0 _

theorem chunkSeg_length_le {α : Type} (pts : List α) (m start : Nat) :
    (chunkSeg pts m start).length ≤ m + 1 := by
  unfold chunkSeg
  simp only
  split
  · refine le_trans (List.length_take_le _ _) ?_
    omega
  · refine le_trans (List.length_take_le _ _) ?_
    omega

theorem chunkLoop_length_le {α : Type} (pts : List α) (m : Nat) (hm : 2 ≤ m) :
    ∀ fuel start, pts.length - start ≤ fuel →
      ∀ c ∈ chunkLoop pts m start hm, c.length ≤ m + 1 := by
  intro fuel
  induction fuel with
  | zero =>
    intro start h1 c hc
    rw [chunkLoop, if_pos (by omega)] at hc
    rw [List.mem_singleton.mp hc]
    exact chunkSeg_length_le pts m start
  | succ k ih =>
    intro start h1 c hc
    rw [chunkLoop] at hc
    split at hc
    · rw [List.mem_singleton.mp hc]
      exact chunkSeg_length_le pts m start
    · rcases List.mem_cons.mp hc with hc1 | hc2
      · rw [hc1]; exact chunkSeg_length_le pts m start
      · exact ih (min (start + m) pts.length - 1) (by omega) c hc2

theorem chunk_points_length_le {α : Type} (pts : List α) (maxPoints : Nat) :
    ∀ c ∈ chunk_points pts maxPoints, c.length ≤ chunkFloor maxPoints + 1 := by
  intro c hc
  unfold chunk_points at hc
  split at hc
  · simp at hc
  · split at hc
    · rw [List.mem_singleton.mp hc]; omega
    · exact chunkLoop_length_le pts _ _ pts.length 0 (by omega) c hc

theorem flattenRouteGroups_head {items : List PyGeom} {p : PyGeom} {ps : List PyGeom}
    (h : flattenRouteGroups items = p :: ps) : ∃ x xs, p = PyGeom.list (x :: xs) := by
  induction items generalizing p ps with
  | nil => simp [flattenRouteGroups] at h
  | cons mr rest ih =>
    rcases mr with q | items2
    · rw [flattenRouteGroups] at h
      exact ih h
    · rcases items2 with _ | ⟨m0, mrest⟩
      · rw [flattenRouteGroups] at h
        exact ih h
      · simp only [flattenRouteGroups] at h
        split at h
        · exact ⟨m0, mrest, (List.cons_eq_cons.mp h).1.symm⟩
        · rcases m0 with q2 | items3
          · exact ih h
          · rcases items3 with _ | ⟨k0, krest⟩
            · exact ih h
            · simp only at h
              split at h
              · rw [List.cons_append] at h
                exact ⟨k0, krest, (List.cons_eq_cons.mp h).1.symm⟩
              · exact ih h

/-- Every route-like geometry has at least one extracted path that is a
nonempty list, so chunking it always produces at least one chunk. -/
theorem extract_route_paths_nonempty (g : PyGeom)
    (hroute : (extract_route_paths g).2 = true) :
    ∃ p ∈ (extract_route_paths g).1, ∃ x xs, p = PyGeom.list (x :: xs) := by
  rcases g with q | items
  · simp [extract_route_paths] at hroute
  · rcases items with _ | ⟨g0, rest⟩
    · simp [extract_route_paths] at hroute
    · by_cases hpp : is_point_pair g0 = true
      · refine ⟨PyGeom.list (g0 :: rest), ?_, g0, rest, rfl⟩
        simp [extract_route_paths, hpp]
      · rcases g0 with q | items2
        · simp [extract_route_paths, hpp] at hroute
        · rcases items2 with _ | ⟨h0, t0⟩
          · simp [extract_route_paths, hpp] at hroute
          · by_cases hpp2 : is_point_pair h0 = true
            · refine ⟨PyGeom.list (h0 :: t0), ?_, h0, t0, rfl⟩
              simp [extract_route_paths, hpp, hpp2]
            · rcases hfl : flattenRouteGroups (PyGeom.list (h0 :: t0) :: rest) with
                _ | ⟨p, ps⟩
              · simp [extract_route_paths, hpp, hpp2, hfl] at hroute
              · obtain ⟨x, xs, hx⟩ := flattenRouteGroups_head hfl
                refine ⟨p, ?_, x, xs, hx⟩
                simp [extract_route_paths, hpp, hpp2, hfl]

/-- Shape, size and nonemptiness of the chunks produced by the per-path
loop, given that every path value is a list. -/
theorem chunkPaths_spec (m : Nat) (paths : List PyGeom)
    (hwf : ∀ p ∈ paths, ∃ pts, p = PyGeom.list pts) :
    ∃ chunks, chunkPaths m paths = .ok chunks ∧
      (∀ c ∈ chunks, ∃ seg, c = PyGeom.list [PyGeom.list seg] ∧
        seg.length ≤ chunkFloor m + 1) ∧
      ((∃ p ∈ paths, ∃ x xs, p = PyGeom.list (x :: xs)) → chunks ≠ []) := by
  induction paths with
  | nil => exact ⟨[], rfl, by simp, by simp⟩
  | cons p rest ih =>
    obtain ⟨pts, hp⟩ := hwf p (by simp)
    obtain ⟨restChunks, hrest, hshape, hne⟩ := ih (fun q hq => hwf q (by simp [hq]))
    subst hp
    refine ⟨(chunk_points pts m).map (fun seg => PyGeom.list [PyGeom.list seg]) ++ restChunks,
      ?_, ?_, ?_⟩
    · rw [chunkPaths]
      rw [hrest]
      rfl
    · intro c hc
      rcases List.mem_append.mp hc with hc1 | hc2
      · obtain ⟨seg, hseg, hceq⟩ := List.mem_map.mp hc1
        exact ⟨seg, hceq.symm, chunk_points_length_le pts m seg hseg⟩
      · exact hshape c hc2
    · rintro ⟨q, hq, x, xs, hx⟩
      rcases List.mem_cons.mp hq with hq1 | hq2
      · rw [hq1] at hx
        have hptsne : pts ≠ [] := by
          intro hcon
          rw [hcon] at hx
          simp at hx
        have := chunk_points_ne_nil pts m hptsne
        intro hcon
        rcases List.append_eq_nil.mp hcon with ⟨hmap, _⟩
        exact this (List.map_eq_nil_iff.mp hmap)
      · have := hne ⟨q, hq2, x, xs, hx⟩
        intro hcon
        exact this (List.append_eq_nil.mp hcon).2

/-- `_chunk_route_geometry` on a well-formed route geometry: chunking
never raises, never falls back to the whole geometry, and every chunk is a
single wrapped segment of at most `chunkFloor m + 1` points. -/
theorem chunk_route_geometry_spec (g : PyGeom) (m : Nat)
    (hroute : (extract_route_paths g).2 = true)
    (hwf : ∀ p ∈ (extract_route_paths g).1, ∃ pts, p = PyGeom.list pts) :
    ∃ chunks, chunk_route_geometry g m = .ok chunks ∧ chunks ≠ [] ∧
      ∀ c ∈ chunks, chunkPointCount c ≤ chunkFloor m + 1 := by
  obtain ⟨chunks0, hok, hshape, hne⟩ := chunkPaths_spec m (extract_route_paths g).1 hwf
  have hne0 : chunks0 ≠ [] := hne (extract_route_paths_nonempty g hroute)
  refine ⟨chunks0, ?_, hne0, ?_⟩
  · unfold chunk_route_geometry
    rcases hext : extract_route_paths g with ⟨paths, flag⟩
    rcases flag with _ | _
    · rw [hext] at hroute; simp at hroute
    · rw [hext] at hok
      simp only
      rw [hok]
      simp [Except.map, List.isEmpty_iff, hne0]
  · intro c hc
    obtain ⟨seg, hceq, hlen⟩ := hshape c hc
    rw [hceq]
    simpa [chunkPointCount] using hlen

theorem callChunksLoop_ok {V E : Type} (call : PyGeom → Except E (List V × String))
    (l : List PyGeom) (h : ∀ c ∈ l, ∃ r, call c = .ok r) :
    ∃ ids labels, callChunksLoop call l = .ok (ids, labels) := by
  induction l with
  | nil => exact ⟨[], [], rfl⟩
  | cons g rest ih =>
    obtain ⟨⟨ids0, labels0⟩, hg⟩ := h g (by simp)
    obtain ⟨ids1, labels1, hrest⟩ := ih (fun c hc => h c (by simp [hc]))
    refine ⟨ids0 ++ ids1, split_string_values labels0 ++ labels1, ?_⟩
    rw [callChunksLoop, hg]
    simp only [hrest]

theorem routeChunkLadder_fail_step {V E : Type} [DecidableEq V]
    (call : PyGeom → Except E (List V × String)) (g : PyGeom)
    (minPoints : Nat) (hmin : 1 ≤ minPoints) (current : Nat)
    (h : minPoints ≤ current) (chunks : List PyGeom) (e : E)
    (hch : chunk_route_geometry g current = .ok chunks)
    (hfail : callChunksLoop call chunks = .error e) :
    routeChunkLadder call g minPoints hmin current =
      routeChunkLadder call g minPoints hmin (current / 2) := by
  rw [routeChunkLadder, if_pos h, hch]
  simp only
  rw [hfail]

theorem routeChunkLadder_ok_step {V E : Type} [DecidableEq V]
    (call : PyGeom → Except E (List V × String)) (g : PyGeom)
    (minPoints : Nat) (hmin : 1 ≤ minPoints) (current : Nat)
    (h : minPoints ≤ current) (chunks : List PyGeom) (ids : List V)
    (labels : List String)
    (hch : chunk_route_geometry g current = .ok chunks)
    (hdone : callChunksLoop call chunks = .ok (ids, labels)) :
    routeChunkLadder call g minPoints hmin current = mergedOutcome ids labels := by
  rw [routeChunkLadder, if_pos h, hch]
  simp only
  rw [hdone]

theorem routeChunkLadder_cases {V E : Type} [DecidableEq V]
    (call : PyGeom → Except E (List V × String)) (g : PyGeom)
    (minPoints : Nat) (hmin : 1 ≤ minPoints) :
    ∀ fuel current, current ≤ fuel →
      (∃ ids labels, routeChunkLadder call g minPoints hmin current = .ok ids labels) ∨
      routeChunkLadder call g minPoints hmin current = .routeExhausted minPoints := by
  intro fuel
  induction fuel with
  | zero =>
    intro current hc
    right
    rw [routeChunkLadder, if_neg (by omega)]
  | succ k ih =>
    intro current hc
    by_cases h : minPoints ≤ current
    · rw [routeChunkLadder, if_pos h]
      rcases hch : chunk_route_geometry g current with e | chunks
      · simp only [hch]
        exact ih (current / 2) (by omega)
      · simp only [hch]
        rcases hcl : callChunksLoop call chunks with e | ⟨ids, labels⟩
        · simp only [hcl]
          exact ih (current / 2) (by omega)
        · simp only [hcl]
          exact Or.inl ⟨_, _, rfl⟩
    · right
      rw [routeChunkLadder, if_neg h]

theorem polygonSliceLadder_cases {V E : Type} [DecidableEq V]
    (call : PyGeom → Except E (List V × String))
    (slicer : PyGeom → Nat → Except E (List PyGeom)) (g : PyGeom) (maxSlices : Nat) :
    ∀ fuel slices (hs : 1 ≤ slices), maxSlices + 1 - slices ≤ fuel →
      (∃ ids labels,
        polygonSliceLadder call slicer g maxSlices slices hs = .ok ids labels) ∨
      polygonSliceLadder call slicer g maxSlices slices hs = .polygonExhausted maxSlices := by
  intro fuel
  induction fuel with
  | zero =>
    intro slices hs hc
    right
    rw [polygonSliceLadder, if_neg (by omega)]
  | succ k ih =>
    intro slices hs hc
    by_cases h : slices ≤ maxSlices
    · rw [polygonSliceLadder, if_pos h]
      rcases hsl : slicer g slices with e | pieces
      · simp only [hsl]
        exact ih (slices * 2) (by omega) (by omega)
      · simp only [hsl]
        rcases hcl : callChunksLoop call pieces with e | ⟨ids, labels⟩
        · simp only [hcl]
          exact ih (slices * 2) (by omega) (by omega)
        · simp only [hcl]
          exact Or.inl ⟨_, _, rfl⟩
    · right
      rw [polygonSliceLadder, if_neg h]

/-- C4 (amended): when the initial full-geometry remote call fails and the
geometry is recognized as route-like with route chunking enabled, or
polygon-like with polygon chunking enabled, `_agol_intersect_adaptive`
never surfaces the remote failure: it returns a merged chunked result or
raises one of the terminal chunking-exhausted failures.  (The unamended
claim — for every input geometry — is refuted by
`adaptive_point_geometry_reraises`.) -/
theorem adaptive_absorbs_remote_failures {V E : Type} [DecidableEq V]
    (call : PyGeom → Except E (List V × String))
    (slicer : PyGeom → Nat → Except E (List PyGeom))
    (geometry : PyGeom) (maxPoints minPoints : Nat) (hmin : 1 ≤ minPoints)
    (initialSlices maxSlices : Nat)
    (enableRouteChunking enablePolygonChunking : Bool)
    (e0 : E) (hfull : call geometry = .error e0)
    (henabled : ((enableRouteChunking && (extract_route_paths geometry).2) ||
      (enablePolygonChunking && (extract_polygon_rings geometry).2)) = true) :
    (∃ ids labels, agol_intersect_adaptive call slicer geometry maxPoints minPoints hmin
      initialSlices maxSlices enableRouteChunking enablePolygonChunking = .ok ids labels) ∨
    (∃ n, agol_intersect_adaptive call slicer geometry maxPoints minPoints hmin
      initialSlices maxSlices enableRouteChunking enablePolygonChunking =
        .routeExhausted n) ∨
    (∃ n, agol_intersect_adaptive call slicer geometry maxPoints minPoints hmin
      initialSlices maxSlices enableRouteChunking enablePolygonChunking =
        .polygonExhausted n) := by
  unfold agol_intersect_adaptive
  simp only [hfull]
  by_cases hr : (enableRouteChunking && (extract_route_paths geometry).2) = true
  · rw [if_pos hr]
    rcases routeChunkLadder_cases call geometry minPoints hmin maxPoints maxPoints
        (Nat.le_refl _) with ⟨ids, labels, heq⟩ | heq
    · exact Or.inl ⟨ids, labels, heq⟩
    · exact Or.inr (Or.inl ⟨minPoints, heq⟩)
  · rw [if_neg hr]
    have hp : (enablePolygonChunking && (extract_polygon_rings geometry).2) = true := by
      rcases Bool.or_eq_true_iff.mp henabled with h | h
      · exact absurd h hr
      · exact h
    rw [if_pos hp]
    rcases polygonSliceLadder_cases call slicer geometry maxSlices
        (maxSlices + 1) (max 2 initialSlices) (by omega) (by omega) with
      ⟨ids, labels, heq⟩ | heq
    · exact Or.inl ⟨ids, labels, heq⟩
    · exact Or.inr (Or.inr ⟨maxSlices, heq⟩)

/-- C4 counterexample: for a bare point-pair geometry — neither route-like
nor polygon-like — a failing remote call is re-raised unchanged, so the
adaptive query does surface the remote failure. -/
theorem adaptive_point_geometry_reraises :
    agol_intersect_adaptive (V := String) (E := String)
      (fun _ => .error "service down") (fun _ _ => .ok [])
      (.list [.num 61, .num (-149)]) 300 15 (by omega) 4 64 true true =
      .remoteFailure "service down" := rfl

/-- Route geometry used to witness the C4 theorem: a single two-point
path. -/
def c4RouteGeo : PyGeom :=
  .list [.list [.num 0, .num 0], .list [.num 1, .num 1]]

/-- Witness for the C4 theorem: a route-like geometry with an
always-failing remote call never produces a `remoteFailure` outcome. -/
theorem adaptive_absorbs_remote_failures_witness :
    ((fun (_ : PyGeom) => (.error "down" : Except String (List String × String)))
        c4RouteGeo = .error "down") ∧
    (((true && (extract_route_paths c4RouteGeo).2) ||
      (true && (extract_polygon_rings c4RouteGeo).2)) = true) ∧
    ((∃ ids labels, agol_intersect_adaptive (V := String) (E := String)
        (fun _ => .error "down") (fun _ _ => .ok [])
        c4RouteGeo 300 15 (by omega) 4 64 true true = .ok ids labels) ∨
    (∃ n, agol_intersect_adaptive (V := String) (E := String)
        (fun _ => .error "down") (fun _ _ => .ok [])
        c4RouteGeo 300 15 (by omega) 4 64 true true = .routeExhausted n) ∨
    (∃ n, agol_intersect_adaptive (V := String) (E := String)
        (fun _ => .error "down") (fun _ _ => .ok [])
        c4RouteGeo 300 15 (by omega) 4 64 true true = .polygonExhausted n)) :=
  ⟨rfl, by decide,
    adaptive_absorbs_remote_failures (fun _ => .error "down") (fun _ _ => .ok [])
      c4RouteGeo 300 15 (by omega) 4 64 true true "down" rfl (by decide)⟩

/-- C2: chunk-retry ladder, Scenario C.  For a well-formed route geometry
whose full-geometry call fails while every produced chunk of at most 50
points succeeds, the adaptive query with `max_points_per_chunk = 300`
returns the first-seen-order deduplicated union of the per-chunk ids and
split labels of some ladder level `k ∈ {300, 150, 75, 37}` — at most 3
halvings, because every chunk at level 37 has at most 38 ≤ 50 points. -/
theorem adaptive_route_chunk_ladder {V E : Type} [DecidableEq V]
    (call : PyGeom → Except E (List V × String))
    (slicer : PyGeom → Nat → Except E (List PyGeom)) (geometry : PyGeom)
    (hroute : (extract_route_paths geometry).2 = true)
    (hwf : ∀ p ∈ (extract_route_paths geometry).1, ∃ pts, p = PyGeom.list pts)
    (e0 : E) (hfull : call geometry = .error e0)
    (hsmall : ∀ m chunks c, chunk_route_geometry geometry m = .ok chunks → c ∈ chunks →
      chunkPointCount c ≤ 50 → ∃ r, call c = .ok r) :
    ∃ k ∈ ([300, 150, 75, 37] : List Nat), ∃ chunks ids labels,
      chunk_route_geometry geometry k = .ok chunks ∧
      callChunksLoop call chunks = .ok (ids, labels) ∧
      agol_intersect_adaptive call slicer geometry 300 15 (by omega) 4 64 true true =
        .ok (unique_preserve_order ids)
          (String.intercalate ", " (unique_preserve_order labels)) := by
  have hadapt : agol_intersect_adaptive call slicer geometry 300 15 (by omega) 4 64
      true true = routeChunkLadder call geometry 15 (by omega) 300 := by
    unfold agol_intersect_adaptive
    simp only [hfull, hroute, Bool.and_true, if_pos]
  obtain ⟨c300, h300ok, h300ne, h300cnt⟩ := chunk_route_geometry_spec geometry 300 hroute hwf
  rcases hcall300 : callChunksLoop call c300 with e1 | ⟨ids, labels⟩
  · have hstep300 := routeChunkLadder_fail_step call geometry 15 (by omega) 300 (by omega)
      c300 e1 h300ok hcall300
    rw [show (300 : Nat) / 2 = 150 from by norm_num] at hstep300
    obtain ⟨c150, h150ok, h150ne, h150cnt⟩ := chunk_route_geometry_spec geometry 150 hroute hwf
    rcases hcall150 : callChunksLoop call c150 with e2 | ⟨ids, labels⟩
    · have hstep150 := routeChunkLadder_fail_step call geometry 15 (by omega) 150 (by omega)
        c150 e2 h150ok hcall150
      rw [show (150 : Nat) / 2 = 75 from by norm_num] at hstep150
      obtain ⟨c75, h75ok, h75ne, h75cnt⟩ := chunk_route_geometry_spec geometry 75 hroute hwf
      rcases hcall75 : callChunksLoop call c75 with e3 | ⟨ids, labels⟩
      · have hstep75 := routeChunkLadder_fail_step call geometry 15 (by omega) 75 (by omega)
          c75 e3 h75ok hcall75
        rw [show (75 : Nat) / 2 = 37 from by norm_num] at hstep75
        obtain ⟨c37, h37ok, h37ne, h37cnt⟩ :=
          chunk_route_geometry_spec geometry 37 hroute hwf
        have hci : ∀ c ∈ c37, ∃ r, call c = .ok r := by
          intro c hc
          refine hsmall 37 c37 c h37ok hc ?_
          have := h37cnt c hc
          have hfl : chunkFloor 37 = 37 := by norm_num [chunkFloor]
          omega
        obtain ⟨ids, labels, hcall37⟩ := callChunksLoop_ok call c37 hci
        refine ⟨37, by simp, c37, ids, labels, h37ok, hcall37, ?_⟩
        rw [hadapt, hstep300, hstep150, hstep75]
        exact routeChunkLadder_ok_step call geometry 15 (by omega) 37 (by omega)
          c37 ids labels h37ok hcall37
      · refine ⟨75, by simp, c75, ids, labels, h75ok, hcall75, ?_⟩
        rw [hadapt, hstep300, hstep150]
        exact routeChunkLadder_ok_step call geometry 15 (by omega) 75 (by omega)
          c75 ids labels h75ok hcall75
    · refine ⟨150, by simp, c150, ids, labels, h150ok, hcall150, ?_⟩
      rw [hadapt, hstep300]
      exact routeChunkLadder_ok_step call geometry 15 (by omega) 150 (by omega)
        c150 ids labels h150ok hcall150
  · refine ⟨300, by simp, c300, ids, labels, h300ok, hcall300, ?_⟩
    rw [hadapt]
    exact routeChunkLadder_ok_step call geometry 15 (by omega) 300 (by omega)
      c300 ids labels h300ok hcall300

/-- Scenario-C witness route: one 60-point path in list-of-paths shape. -/
def scenarioPath : List PyGeom := List.replicate 60 (PyGeom.list [.num 0, .num 0])

/-- Scenario-C witness geometry. -/
def scenarioGeo : PyGeom := .list [.list scenarioPath]

/-- Scenario-C witness remote collaborator: fails on any chunk of more
than 50 points (in particular on the 60-point full route), succeeds on
smaller chunks. -/
def scenarioCall : PyGeom → Except String (List String × String) :=
  fun g =>
    if chunkPointCount g ≤ 50 then .ok (["gid-1"], "District 7")
    else .error "geometry too large"

/-- Witness for the C2 theorem at the concrete Scenario-C inputs. -/
theorem adaptive_route_chunk_ladder_witness :
    scenarioCall scenarioGeo = .error "geometry too large" ∧
    (extract_route_paths scenarioGeo).2 = true ∧
    (∃ k ∈ ([300, 150, 75, 37] : List Nat), ∃ chunks ids labels,
      chunk_route_geometry scenarioGeo k = .ok chunks ∧
      callChunksLoop scenarioCall chunks = .ok (ids, labels) ∧
      agol_intersect_adaptive scenarioCall (fun _ _ => .ok []) scenarioGeo
          300 15 (by omega) 4 64 true true =
        .ok (unique_preserve_order ids)
          (String.intercalate ", " (unique_preserve_order labels))) := by
  refine ⟨rfl, rfl, adaptive_route_chunk_ladder scenarioCall (fun _ _ => .ok [])
    scenarioGeo rfl ?_ "geometry too large" rfl ?_⟩
  · intro p hp
    rw [show (extract_route_paths scenarioGeo).1 = [PyGeom.list scenarioPath] from rfl] at hp
    refine ⟨scenarioPath, ?_⟩
    simpa using hp
  · intro m chunks c hok hc hcnt
    exact ⟨(["gid-1"], "District 7"), by simp only [scenarioCall, if_pos hcnt]⟩

/-- The per-coordinate check of `_build_geometry`'s line-or-polygon branch
(agol_util.py): a value qualifies iff it is a two-element list of numbers;
the numeric pair is extracted. -/
def asPair : PyGeom → Option (ℚ × ℚ)
  | .list [.num x, .num y] => some (x, y)
  | _ => none

/-- ArcGIS JSON geometry dictionaries produced by
`AGOLQueryIntersect._build_geometry` (identical in agol_util.py and
agol/agol_util.py): a point, a single-path polyline, or a single-ring
polygon, always with `spatialReference` WKID 4326. -/
inductive EsriGeom where
  | point (x y : ℚ)
  | polyline (paths : List (List (ℚ × ℚ)))
  | polygon (rings : List (List (ℚ × ℚ)))
deriving DecidableEq

/-- The `all(...)` gate of `_build_geometry`'s line-or-polygon branch:
every element must be a two-element numeric list; the extracted pairs are
returned. -/
def asPairs : List PyGeom → Option (List (ℚ × ℚ))
  | [] => some []
  | g :: rest =>
      match asPair g with
      | none => none
      | some p =>
          match asPairs rest with
          | none => none
          | some ps => some (p :: ps)

/-- The body of `_build_geometry` after the `all(...)` gate succeeded on a
nonempty coordinate list: two points are a polyline; otherwise close the
ring when first ≠ last and emit a polygon when the ring has at least 4
points, falling back to polyline. -/
def classifyPairs (p0 : ℚ × ℚ) (prest : List (ℚ × ℚ)) : Option EsriGeom :=
  if (p0 :: prest).length = 2 then some (.polyline [p0 :: prest])
  else
    let ring :=
      if p0 ≠ (p0 :: prest).getLast (by simp) then (p0 :: prest) ++ [p0]
      else p0 :: prest
    if 4 ≤ ring.length then some (.polygon [ring])
    else some (.polyline [p0 :: prest])

/-- `AGOLQueryIntersect._build_geometry` (agol_util.py:819 and
agol/agol_util.py:743): classify a geometry value.  `none` covers the three
non-returning paths of the Python code: the ValueError for a non-list, the
implicit `None` fall-through when some element is not a numeric pair, and
the IndexError on the empty list. -/
def build_geometry : PyGeom → Option EsriGeom
  | .num _ => none
  | .list items =>
      match items with
      | [.num x, .num y] => some (.point x y)
      | _ =>
          match asPairs items with
          | none => none
          | some [] => none
          | some (p0 :: prest) => classifyPairs p0 prest

/-- A list of coordinate pairs in the nested-list shape the Python code
receives. -/
def pairsToPy (pts : List (ℚ × ℚ)) : PyGeom :=
  .list (pts.map (fun p => PyGeom.list [.num p.1, .num p.2]))

theorem asPairs_pairsToPy (pts : List (ℚ × ℚ)) :
    asPairs (pts.map (fun p => PyGeom.list [.num p.1, .num p.2])) = some pts := by
  induction pts with
  | nil => rfl
  | cons p rest ih =>
    rw [List.map_cons, asPairs]
    simp [asPair, ih]

/-- On a nonempty list of coordinate pairs, `_build_geometry` reduces to
the line-or-polygon classification (the point branch never fires because
the elements are lists, not numbers). -/
theorem build_geometry_pairsToPy (p0 : ℚ × ℚ) (prest : List (ℚ × ℚ)) :
    build_geometry (pairsToPy (p0 :: prest)) = classifyPairs p0 prest := by
  rw [pairsToPy, List.map_cons]
  rw [show build_geometry (.list (PyGeom.list [.num p0.1, .num p0.2] ::
      prest.map (fun p => PyGeom.list [.num p.1, .num p.2]))) =
    (match asPairs (PyGeom.list [.num p0.1, .num p0.2] ::
        prest.map (fun p => PyGeom.list [.num p.1, .num p.2])) with
      | none => none
      | some [] => none
      | some (q0 :: qrest) => classifyPairs q0 qrest) from rfl]
  rw [show (PyGeom.list [.num p0.1, .num p0.2] ::
      prest.map (fun p => PyGeom.list [.num p.1, .num p.2])) =
    ((p0 :: prest).map (fun p => PyGeom.list [.num p.1, .num p.2])) from by
      rw [List.map_cons]]
  rw [asPairs_pairsToPy]

/-- C9 counterexample: an already-closed 3-point coordinate list (first
equals last) is sent as a polyline, not as a polygon — refuting "every
coordinate list with three or more points is sent as an Esri polygon". -/
theorem build_geometry_closed_triple_is_polyline :
    build_geometry (.list [.list [.num 0, .num 0], .list [.num 1, .num 1],
        .list [.num 0, .num 0]]) =
      some (.polyline [[(0, 0), (1, 1), (0, 0)]]) := by
  decide

/-- C9 (amended): at the intersect interface a coordinate list of exactly
two points is sent as an Esri polyline; a list of three or more points is
closed (the first point is appended when first ≠ last) and sent as a
single-ring Esri polygon provided the closed ring has at least 4 points —
an already-closed 3-point list falls back to polyline. -/
theorem build_geometry_classification (p0 : ℚ × ℚ) (prest : List (ℚ × ℚ)) :
    ((p0 :: prest).length = 2 →
      build_geometry (pairsToPy (p0 :: prest)) = some (.polyline [p0 :: prest])) ∧
    (3 ≤ (p0 :: prest).length → p0 ≠ (p0 :: prest).getLast (by simp) →
      build_geometry (pairsToPy (p0 :: prest)) =
        some (.polygon [(p0 :: prest) ++ [p0]])) ∧
    (4 ≤ (p0 :: prest).length → p0 = (p0 :: prest).getLast (by simp) →
      build_geometry (pairsToPy (p0 :: prest)) = some (.polygon [p0 :: prest])) ∧
    ((p0 :: prest).length = 3 → p0 = (p0 :: prest).getLast (by simp) →
      build_geometry (pairsToPy (p0 :: prest)) = some (.polyline [p0 :: prest])) := by
  rw [build_geometry_pairsToPy]
  refine ⟨?_, ?_, ?_, ?_⟩
  · intro hlen
    rw [classifyPairs, if_pos hlen]
  · intro hlen hne
    rw [classifyPairs, if_neg (by omega : ¬(p0 :: prest).length = 2)]
    simp only [if_pos hne]
    rw [if_pos (by simp at hlen ⊢; omega)]
  · intro hlen heq
    rw [classifyPairs, if_neg (by omega : ¬(p0 :: prest).length = 2)]
    simp only [if_neg (not_not_intro heq)]
    rw [if_pos (by simpa using hlen)]
  · intro hlen heq
    rw [classifyPairs, if_neg (by omega : ¬(p0 :: prest).length = 2)]
    simp only [if_neg (not_not_intro heq)]
    rw [if_neg (by omega)]

/-- Witness for the C9 theorem at concrete 2-point, open 3-point, closed
4-point and closed 3-point inputs. -/
theorem build_geometry_classification_witness :
    (((0, 0) : ℚ × ℚ) ≠ ([((0 : ℚ), (0 : ℚ)), (1, 1), (2, 2)].getLast (by simp)) ∧
      build_geometry (pairsToPy [(0, 0), (1, 1), (2, 2)]) =
        some (.polygon [[(0, 0), (1, 1), (2, 2), (0, 0)]])) ∧
    build_geometry (pairsToPy [(0, 0), (1, 1)]) = some (.polyline [[(0, 0), (1, 1)]]) :=
  ⟨⟨by decide,
      ((build_geometry_classification (0, 0) [(1, 1), (2, 2)]).2.1 (by decide) (by decide))⟩,
    (build_geometry_classification (0, 0) [(1, 1)]).1 rfl⟩

theorem nat_or_eq_zero_iff (m n : Nat) : m ||| n = 0 ↔ m = 0 ∧ n = 0 := by
  constructor
  · intro h
    constructor
    · apply Nat.zero_of_testBit_eq_false
      intro i
      have hcongr := congrArg (fun x => Nat.testBit x i) h
      simp only [Nat.testBit_lor, Nat.zero_testBit, Bool.or_eq_false_iff] at hcongr
      exact hcongr.1
    · apply Nat.zero_of_testBit_eq_false
      intro i
      have hcongr := congrArg (fun x => Nat.testBit x i) h
      simp only [Nat.testBit_lor, Nat.zero_testBit, Bool.or_eq_false_iff] at hcongr
      exact hcongr.2
  · rintro ⟨rfl, rfl⟩
    rfl

/-- The 4-bit Cohen–Sutherland outcode of
`AGOLRouteSegmentFinder._clip_segment_to_bbox` (agol/agol_util.py:1537):
bit 1 left of the box, bit 2 right, bit 4 below, bit 8 above; the two
components occupy disjoint bits, so the Python `|=` accumulations are
written as a sum. -/
def outcode {α : Type} [LinearOrderedField α] (xmin ymin xmax ymax x y : α) : Nat :=
  (if x < xmin then 1 else if xmax < x then 2 else 0) +
  (if y < ymin then 4 else if ymax < y then 8 else 0)

theorem outcode_eq_zero_iff {α : Type} [LinearOrderedField α]
    (xmin ymin xmax ymax x y : α) :
    outcode xmin ymin xmax ymax x y = 0 ↔
      xmin ≤ x ∧ x ≤ xmax ∧ ymin ≤ y ∧ y ≤ ymax := by
  unfold outcode
  split_ifs <;> simp_all

/-- The endpoint move of one `_clip_segment_to_bbox` iteration
(agol/agol_util.py:1556): slide the outside endpoint onto the violated
boundary, testing top, bottom, right, left in that fixed order. -/
def csMove {α : Type} [LinearOrderedField α]
    (xmin ymin xmax ymax x1 y1 x2 y2 : α) (out : Nat) : α × α :=
  let dx := x2 - x1
  let dy := y2 - y1
  if out &&& 8 ≠ 0 then
    (if dy ≠ 0 then x1 + dx * (ymax - y1) / dy else x1, ymax)
  else if out &&& 4 ≠ 0 then
    (if dy ≠ 0 then x1 + dx * (ymin - y1) / dy else x1, ymin)
  else if out &&& 2 ≠ 0 then
    (xmax, if dx ≠ 0 then y1 + dy * (xmax - x1) / dx else y1)
  else
    (xmin, if dx ≠ 0 then y1 + dy * (xmin - x1) / dx else y1)

/-- The `while True` loop of `_clip_segment_to_bbox`
(agol/agol_util.py:1548), with an explicit iteration budget.  Each
iteration moves the endpoint whose outcode equals `out` onto the violated
boundary (top, bottom, right, left tested in that order); a boundary never
reappears in later outcodes, so Cohen–Sutherland needs at most 4 moves and
a budget of 8 is never exhausted. -/
def clipSegmentLoop {α : Type} [LinearOrderedField α] (xmin ymin xmax ymax : α) :
    Nat → α → α → α → α → Option (α × α × α × α)
  | 0, _, _, _, _ => none
  | fuel + 1, x1, y1, x2, y2 =>
      let c1 := outcode xmin ymin xmax ymax x1 y1
      let c2 := outcode xmin ymin xmax ymax x2 y2
      if c1 ||| c2 = 0 then some (x1, y1, x2, y2)
      else if c1 &&& c2 ≠ 0 then none
      else
        let out := if c1 ≠ 0 then c1 else c2
        let xy := csMove xmin ymin xmax ymax x1 y1 x2 y2 out
        if out = c1 then clipSegmentLoop xmin ymin xmax ymax fuel xy.1 xy.2 x2 y2
        else clipSegmentLoop xmin ymin xmax ymax fuel x1 y1 xy.1 xy.2

/-- `AGOLRouteSegmentFinder._clip_segment_to_bbox` (agol/agol_util.py:1532):
Cohen–Sutherland clip of one segment, `none` when fully outside. -/
def clip_segment_to_bbox {α : Type} [LinearOrderedField α]
    (x1 y1 x2 y2 xmin ymin xmax ymax : α) : Option (α × α × α × α) :=
  clipSegmentLoop xmin ymin xmax ymax 8 x1 y1 x2 y2

/-- Whatever segment the Cohen–Sutherland loop returns has both endpoint
outcodes zero: the only `some` exit is the all-inside branch. -/
theorem clipSegmentLoop_sound {α : Type} [LinearOrderedField α]
    (xmin ymin xmax ymax : α) :
    ∀ fuel x1 y1 x2 y2 r,
      clipSegmentLoop xmin ymin xmax ymax fuel x1 y1 x2 y2 = some r →
      outcode xmin ymin xmax ymax r.1 r.2.1 = 0 ∧
      outcode xmin ymin xmax ymax r.2.2.1 r.2.2.2 = 0 := by
  intro fuel
  induction fuel with
  | zero => intro x1 y1 x2 y2 r h; simp [clipSegmentLoop] at h
  | succ k ih =>
    intro x1 y1 x2 y2 r h
    rw [clipSegmentLoop] at h
    split at h
    · rename_i hzero
      obtain ⟨h1, h2⟩ := (nat_or_eq_zero_iff _ _).mp hzero
      obtain rfl := (Option.some_inj).mp h
      exact ⟨h1, h2⟩
    · split at h
      · exact absurd h (by simp)
      · dsimp only at h
        split at h <;> split at h <;> exact ih _ _ _ _ r h

/-- A point lies inside (or on the boundary of) the clipping box. -/
def inBox {α : Type} [LinearOrderedField α] (xmin ymin xmax ymax : α)
    (p : α × α) : Prop :=
  xmin ≤ p.1 ∧ p.1 ≤ xmax ∧ ymin ≤ p.2 ∧ p.2 ≤ ymax

/-- One iteration of the inner segment loop of `_clip_polyline_to_bbox`
(agol/agol_util.py:1584): clip the segment; on `None` flush the current
sub-path, otherwise append the clipped endpoints, skipping the first one
when it coincides (within 1e-12) with the last emitted point. -/
def clipPolyStep {α : Type} [LinearOrderedField α] (xmin ymin xmax ymax : α)
    (st : List (List (α × α)) × List (α × α)) (seg : (α × α) × (α × α)) :
    List (List (α × α)) × List (α × α) :=
  match clip_segment_to_bbox seg.1.1 seg.1.2 seg.2.1 seg.2.2 xmin ymin xmax ymax with
  | none => if st.2 ≠ [] then (st.1 ++ [st.2], []) else st
  | some (cx1, cy1, cx2, cy2) =>
      let current :=
        match st.2.getLast? with
        | none => st.2 ++ [(cx1, cy1)]
        | some (lastx, lasty) =>
            if |lastx - cx1| > (1 / 10 ^ 12 : α) ∨ |lasty - cy1| > (1 / 10 ^ 12 : α) then
              st.2 ++ [(cx1, cy1)]
            else st.2
      (st.1, current ++ [(cx2, cy2)])

/-- The per-path body of `_clip_polyline_to_bbox`: fold the segment loop
over consecutive point pairs, then flush a nonempty current sub-path. -/
def clipOnePath {α : Type} [LinearOrderedField α] (xmin ymin xmax ymax : α)
    (outPaths : List (List (α × α))) (path : List (α × α)) :
    List (List (α × α)) :=
  let res := (path.zip path.tail).foldl (clipPolyStep xmin ymin xmax ymax) (outPaths, [])
  if res.2 ≠ [] then res.1 ++ [res.2] else res.1

/-- `AGOLRouteSegmentFinder._clip_polyline_to_bbox`
(agol/agol_util.py:1578): clip a multi-path polyline to the envelope,
`none` when no segment survives. -/
def clip_polyline_to_bbox {α : Type} [LinearOrderedField α]
    (polyline : List (List (α × α))) (xmin ymin xmax ymax : α) :
    Option (List (List (α × α))) :=
  let outPaths := polyline.foldl (clipOnePath xmin ymin xmax ymax) []
  if outPaths.isEmpty then none else some outPaths

theorem foldl_preserves {β σ : Type} (P : σ → Prop) (f : σ → β → σ)
    (hf : ∀ s b, P s → P (f s b)) :
    ∀ (l : List β) (s : σ), P s → P (l.foldl f s) := by
  intro l
  induction l with
  | nil => intro s hs; exact hs
  | cons b rest ih => intro s hs; exact ih (f s b) (hf s b hs)

/-- Invariant carried through the clipping folds: every already-emitted
path and the current partial path contain only in-box points. -/
def clipInv {α : Type} [LinearOrderedField α] (xmin ymin xmax ymax : α)
    (st : List (List (α × α)) × List (α × α)) : Prop :=
  (∀ path ∈ st.1, ∀ p ∈ path, inBox xmin ymin xmax ymax p) ∧
  (∀ p ∈ st.2, inBox xmin ymin xmax ymax p)

theorem clipPolyStep_preserves {α : Type} [LinearOrderedField α]
    (xmin ymin xmax ymax : α) (st : List (List (α × α)) × List (α × α))
    (seg : (α × α) × (α × α)) (hst : clipInv xmin ymin xmax ymax st) :
    clipInv xmin ymin xmax ymax (clipPolyStep xmin ymin xmax ymax st seg) := by
  obtain ⟨hpaths, hcur⟩ := hst
  unfold clipPolyStep
  rcases hclip : clip_segment_to_bbox seg.1.1 seg.1.2 seg.2.1 seg.2.2 xmin ymin xmax ymax
    with _ | ⟨cx1, cy1, cx2, cy2⟩
  · simp only
    split
    · refine ⟨?_, by simp⟩
      intro path hp
      rcases List.mem_append.mp hp with h1 | h2
      · exact hpaths path h1
      · rw [List.mem_singleton.mp h2]
        exact hcur
    · exact ⟨hpaths, hcur⟩
  · have hsound := clipSegmentLoop_sound xmin ymin xmax ymax 8 seg.1.1 seg.1.2 seg.2.1
      seg.2.2 (cx1, cy1, cx2, cy2) hclip
    have hin1 : inBox xmin ymin xmax ymax (cx1, cy1) := by
      have := (outcode_eq_zero_iff xmin ymin xmax ymax cx1 cy1).mp hsound.1
      exact this
    have hin2 : inBox xmin ymin xmax ymax (cx2, cy2) := by
      have := (outcode_eq_zero_iff xmin ymin xmax ymax cx2 cy2).mp hsound.2
      exact this
    refine ⟨hpaths, ?_⟩
    intro p hp
    simp only at hp
    rcases List.mem_append.mp hp with h1 | h2
    · -- p is in the possibly-extended current path
      split at h1
      · rcases List.mem_append.mp h1 with h3 | h4
        · exact hcur p h3
        · rw [List.mem_singleton.mp h4]; exact hin1
      · split at h1
        · rcases List.mem_append.mp h1 with h3 | h4
          · exact hcur p h3
          · rw [List.mem_singleton.mp h4]; exact hin1
        · exact hcur p h1
    · rw [List.mem_singleton.mp h2]
      exact hin2

theorem clipOnePath_preserves {α : Type} [LinearOrderedField α]
    (xmin ymin xmax ymax : α) (outPaths : List (List (α × α)))
    (path : List (α × α))
    (h : ∀ q ∈ outPaths, ∀ p ∈ q, inBox xmin ymin xmax ymax p) :
    ∀ q ∈ clipOnePath xmin ymin xmax ymax outPaths path,
      ∀ p ∈ q, inBox xmin ymin xmax ymax p := by
  unfold clipOnePath
  have hinv : clipInv xmin ymin xmax ymax
      ((path.zip path.tail).foldl (clipPolyStep xmin ymin xmax ymax) (outPaths, [])) :=
    foldl_preserves (clipInv xmin ymin xmax ymax) (clipPolyStep xmin ymin xmax ymax)
      (clipPolyStep_preserves xmin ymin xmax ymax) (path.zip path.tail)
      (outPaths, []) ⟨h, by simp⟩
  obtain ⟨hpaths, hcur⟩ := hinv
  intro q hq p hp
  simp only at hq
  split at hq
  · rcases List.mem_append.mp hq with h1 | h2
    · exact hpaths q h1 p hp
    · rw [List.mem_singleton.mp h2] at hp
      exact hcur p hp
  · exact hpaths q hq p hp

/-- C1: clip soundness.  For every multi-path polyline and every envelope
with `xmin ≤ xmax` and `ymin ≤ ymax`, every coordinate in a non-`None`
result of `_clip_polyline_to_bbox` lies within (or on the boundary of) the
envelope. -/
theorem clip_polyline_sound {α : Type} [LinearOrderedField α]
    (polyline : List (List (α × α))) (xmin ymin xmax ymax : α)
    (_hx : xmin ≤ xmax) (_hy : ymin ≤ ymax) (res : List (List (α × α)))
    (hres : clip_polyline_to_bbox polyline xmin ymin xmax ymax = some res) :
    ∀ path ∈ res, ∀ p ∈ path,
      xmin ≤ p.1 ∧ p.1 ≤ xmax ∧ ymin ≤ p.2 ∧ p.2 ≤ ymax := by
  have hall : ∀ q ∈ polyline.foldl (clipOnePath xmin ymin xmax ymax) [],
      ∀ p ∈ q, inBox xmin ymin xmax ymax p := by
    refine foldl_preserves
      (fun acc => ∀ q ∈ acc, ∀ p ∈ q, inBox xmin ymin xmax ymax p)
      (clipOnePath xmin ymin xmax ymax) ?_ polyline [] (by simp)
    intro acc path hacc
    exact clipOnePath_preserves xmin ymin xmax ymax acc path hacc
  unfold clip_polyline_to_bbox at hres
  dsimp only at hres
  split at hres
  · exact absurd hres (by simp)
  · obtain rfl := Option.some_inj.mp hres
    exact hall

/-- Witness for the C1 theorem: a two-path polyline — one segment inside
the box [0,5]×[0,5], one fully outside — clips to the inside segment, and
every returned coordinate lies in the box. -/
theorem clip_polyline_sound_witness :
    clip_polyline_to_bbox ([[((0 : ℚ), (0 : ℚ)), (1, 1)], [(6, 6), (7, 7)]]) 0 0 5 5 =
      some [[(0, 0), (1, 1)]] ∧
    (0 : ℚ) ≤ 5 ∧
    (∀ path ∈ [[((0 : ℚ), (0 : ℚ)), (1, 1)]], ∀ p ∈ path,
      (0 : ℚ) ≤ p.1 ∧ p.1 ≤ 5 ∧ (0 : ℚ) ≤ p.2 ∧ p.2 ≤ 5) :=
  ⟨by decide, by decide,
    clip_polyline_sound [[((0 : ℚ), (0 : ℚ)), (1, 1)], [(6, 6), (7, 7)]] 0 0 5 5
      (by decide) (by decide) [[(0, 0), (1, 1)]] (by decide)⟩

open scoped Classical in
/-- `get_route_segment._mean_lat` (agol_util.py:284): mean latitude of a
line's (lon, lat) coordinates, 0 for an empty line. -/
noncomputable def mean_lat (coords : List (ℝ × ℝ)) : ℝ :=
  if coords.isEmpty then 0
  else (coords.map (fun c => c.2)).sum / coords.length

/-- `get_route_segment._meters_per_degree` (agol_util.py:290): local
meters-per-degree of latitude and longitude, with the longitude factor
floored at 1e-6 to avoid zero near the poles. -/
noncomputable def meters_per_degree (latDeg : ℝ) : ℝ × ℝ :=
  let latRad := latDeg * (Real.pi / 180)
  (111320, max (111320 * Real.cos latRad) (1 / 1000000))

/-- `math.hypot`. -/
noncomputable def hypot (x y : ℝ) : ℝ := Real.sqrt (x * x + y * y)

open scoped Classical in
/-- `get_route_segment._approx_length_m` (agol_util.py:302): equirectangular
per-segment length sum about the mean latitude. -/
noncomputable def approx_length_m (line : List (ℝ × ℝ)) : ℝ :=
  if line.length < 2 then 0
  else
    let lat0 := mean_lat line
    let m := meters_per_degree lat0
    ((line.zip line.tail).map
      (fun s => hypot ((s.2.1 - s.1.1) * m.2) ((s.2.2 - s.1.2) * m.1))).sum

/-- `get_route_segment._adaptive_tolerance_deg` (agol_util.py:323): clamp
the length-proportional tolerance to [min_tolerance_m, max_tolerance_m] and
convert to degrees using the stricter (smaller) of the two conversions.
Returns (tol_deg, tol_m, length_m). -/
noncomputable def adaptive_tolerance_deg (toleranceFrac minTolM maxTolM : ℝ)
    (line : List (ℝ × ℝ)) : ℝ × ℝ × ℝ :=
  let lengthM := approx_length_m line
  let tolM := max minTolM (min maxTolM (lengthM * toleranceFrac))
  let lat0 := mean_lat line
  let m := meters_per_degree lat0
  (min (tolM / m.1) (tolM / m.2), tolM, lengthM)

open scoped Classical in
/-- The bounded backoff loop shared by both guardrails of
`get_route_segment._simplify_with_guardrails` (agol_util.py:374 and 389):
up to 6 times, halve the tolerance and return the re-simplified line as
soon as it is a LineString satisfying `cond`; otherwise give up and return
the original line.  The external shapely simplifier is the `simplify`
parameter; `none` models a non-LineString result. -/
noncomputable def backoffLoop (simplify : List (ℝ × ℝ) → ℝ → Bool → Option (List (ℝ × ℝ)))
    (line : List (ℝ × ℝ)) (preserve : Bool) (cond : List (ℝ × ℝ) → Prop) :
    ℝ → Nat → List (ℝ × ℝ)
  | _, 0 => line
  | tolDeg, n + 1 =>
      let tolDeg2 := tolDeg * (1 / 2)
      match simplify line tolDeg2 preserve with
      | some simp2 => if cond simp2 then simp2 else backoffLoop simplify line preserve cond tolDeg2 n
      | none => backoffLoop simplify line preserve cond tolDeg2 n

open scoped Classical in
/-- `get_route_segment._simplify_with_guardrails` (agol_util.py:345):
simplify under the adaptive tolerance, reverting to the original line on
unusable results, and applying the min-points and max-reduction guardrails
in order, each with a 6-step halving backoff. -/
noncomputable def simplify_with_guardrails
    (simplify : List (ℝ × ℝ) → ℝ → Bool → Option (List (ℝ × ℝ)))
    (toleranceFrac minTolM maxTolM : ℝ) (preserve : Bool)
    (maxPointReduction : ℝ) (minPoints : Nat) (line : List (ℝ × ℝ)) : List (ℝ × ℝ) :=
  if line.isEmpty then line
  else if line.length < 3 then line
  else
    let tolDeg := (adaptive_tolerance_deg toleranceFrac minTolM maxTolM line).1
    match simplify line tolDeg preserve with
    | none => line
    | some simpCoords =>
        if simpCoords.isEmpty then line
        else if simpCoords.length < 2 then line
        else if minPoints ≤ line.length ∧ simpCoords.length < minPoints then
          backoffLoop simplify line preserve (fun l => minPoints ≤ l.length) tolDeg 6
        else if 1 - (simpCoords.length : ℝ) / (max 1 line.length : ℕ) > maxPointReduction then
          backoffLoop simplify line preserve
            (fun l => 1 - (l.length : ℝ) / (max 1 line.length : ℕ) ≤ maxPointReduction)
            tolDeg 6
        else simpCoords

theorem backoffLoop_post (simplify : List (ℝ × ℝ) → ℝ → Bool → Option (List (ℝ × ℝ)))
    (line : List (ℝ × ℝ)) (preserve : Bool) (cond : List (ℝ × ℝ) → Prop) :
    ∀ tolDeg n, backoffLoop simplify line preserve cond tolDeg n = line ∨
      cond (backoffLoop simplify line preserve cond tolDeg n) := by
  intro tolDeg n
  induction n generalizing tolDeg with
  | zero => left; rfl
  | succ k ih =>
    rw [backoffLoop]
    rcases simplify line (tolDeg * (1 / 2)) preserve with _ | simp2
    · exact ih (tolDeg * (1 / 2))
    · simp only
      split
      · right; assumption
      · exact ih (tolDeg * (1 / 2))

/-- C6: simplification guardrail.  For every simplifier behavior and every
input line with at least `minPoints` vertices, the guarded simplification
returns at least `minPoints` vertices; in particular a 1000-point path with
`min_points = 50` never drops below 50 points. -/
theorem simplify_guardrails_min_points
    (simplify : List (ℝ × ℝ) → ℝ → Bool → Option (List (ℝ × ℝ)))
    (toleranceFrac minTolM maxTolM : ℝ) (preserve : Bool)
    (maxPointReduction : ℝ) (minPoints : Nat) (line : List (ℝ × ℝ))
    (h : minPoints ≤ line.length) :
    minPoints ≤ (simplify_with_guardrails simplify toleranceFrac minTolM maxTolM
      preserve maxPointReduction minPoints line).length := by
  unfold simplify_with_guardrails
  split
  · exact h
  · split
    · exact h
    · dsimp only
      split
      · exact h
      · rename_i simpCoords heq
        split
        · exact h
        · split
          · exact h
          · split
            · -- guardrail 1: every exit has at least minPoints vertices
              rcases backoffLoop_post simplify line preserve
                  (fun l => minPoints ≤ l.length)
                  (adaptive_tolerance_deg toleranceFrac minTolM maxTolM line).1 6 with
                heq2 | hcond
              · rw [heq2]; exact h
              · exact hcond
            · rename_i hng1
              split
              · -- guardrail 2: the reduction bound forces more points than
                -- the triggering simplification had
                rename_i hg2
                rcases backoffLoop_post simplify line preserve
                    (fun l => 1 - (l.length : ℝ) / (max 1 line.length : ℕ) ≤
                      maxPointReduction)
                    (adaptive_tolerance_deg toleranceFrac minTolM maxTolM line).1 6 with
                  heq2 | hcond
                · rw [heq2]; exact h
                · set res := backoffLoop simplify line preserve
                    (fun l => 1 - (l.length : ℝ) / (max 1 line.length : ℕ) ≤
                      maxPointReduction)
                    (adaptive_tolerance_deg toleranceFrac minTolM maxTolM line).1 6
                  have hsimp : minPoints ≤ simpCoords.length := by
                    rcases Nat.lt_or_ge simpCoords.length minPoints with hlt | hge
                    · exact absurd ⟨h, hlt⟩ hng1
                    · exact hge
                  have hO : (0 : ℝ) < ((max 1 line.length : ℕ) : ℝ) := by
                    have hle : 1 ≤ max 1 line.length := le_max_left 1 line.length
                    exact_mod_cast Nat.lt_of_lt_of_le Nat.zero_lt_one hle
                  have hlt2 : (simpCoords.length : ℝ) / (max 1 line.length : ℕ) <
                      (res.length : ℝ) / (max 1 line.length : ℕ) := by
                    have h1 : 1 - (res.length : ℝ) / (max 1 line.length : ℕ) ≤
                        maxPointReduction := hcond
                    linarith
                  have hlen : simpCoords.length < res.length := by
                    have hdiv := (div_lt_div_iff_of_pos_right hO).mp hlt2
                    exact_mod_cast hdiv
                  omega
              · rcases Nat.lt_or_ge simpCoords.length minPoints with hlt | hge
                · exact absurd ⟨h, hlt⟩ hng1
                · exact hge

/-- Witness for the C6 theorem: a 1000-point path with `min_points = 50`
under an aggressive simplifier that keeps only 10 points. -/
theorem simplify_guardrails_min_points_witness :
    50 ≤ (List.replicate 1000 ((0 : ℝ), (0 : ℝ))).length ∧
    50 ≤ (simplify_with_guardrails (fun l _ _ => some (l.take 10))
      (1 / 1000) 5 25 true (9 / 10) 50
      (List.replicate 1000 ((0 : ℝ), (0 : ℝ)))).length :=
  ⟨by rw [List.length_replicate]; norm_num,
    simplify_guardrails_min_points (fun l _ _ => some (l.take 10))
    (1 / 1000) 5 25 true (9 / 10) 50
    (List.replicate 1000 ((0 : ℝ), (0 : ℝ)))
    (by rw [List.length_replicate]; norm_num)⟩

/-- `math.radians`. -/
noncomputable def radiansR (deg : ℝ) : ℝ := deg * (Real.pi / 180)

/-- A WGS84 envelope dictionary `{xmin, ymin, xmax, ymax,
spatialReference: {wkid: 4326}}`. -/
structure EnvelopeSq where
  xmin : ℝ
  ymin : ℝ
  xmax : ℝ
  ymax : ℝ

open scoped Classical in
/-- The `pad` clamp at the top of
`AGOLRouteSegmentFinder._build_envelope_square_meters`
(agol/agol_util.py:1373). -/
noncomputable def envPad (padDeg : ℝ) : ℝ := if padDeg < 0 then 0 else padDeg

/-- The initial degree bbox with symmetric pad
(agol/agol_util.py:1382): `(xmin, ymin, xmax, ymax)`; points are
(lat, lon). -/
noncomputable def envBox (bop eop : ℝ × ℝ) (padDeg : ℝ) : EnvelopeSq :=
  { xmin := min bop.2 eop.2 - envPad padDeg
    ymin := min bop.1 eop.1 - envPad padDeg
    xmax := max bop.2 eop.2 + envPad padDeg
    ymax := max bop.1 eop.1 + envPad padDeg }

/-- bbox center (agol/agol_util.py:1388). -/
noncomputable def envCenter (bop eop : ℝ × ℝ) (padDeg : ℝ) : ℝ × ℝ :=
  ((( envBox bop eop padDeg).xmin + (envBox bop eop padDeg).xmax) / 2,
   (((envBox bop eop padDeg).ymin + (envBox bop eop padDeg).ymax) / 2))

/-- Local meters-per-degree factors at a latitude
(agol/agol_util.py:1392): `(m_per_deg_lat, m_per_deg_lon)` with the
longitude factor floored at 0 through `max(0.0, cos ...)`. -/
noncomputable def envMeterFactors (cy : ℝ) : ℝ × ℝ :=
  (111320, 111320 * max 0 (Real.cos (radiansR cy)))

open scoped Classical in
/-- Current bbox size in meters (agol/agol_util.py:1396). -/
noncomputable def envWidthHeightM (bop eop : ℝ × ℝ) (padDeg : ℝ) : ℝ × ℝ :=
  let box := envBox bop eop padDeg
  let mLon := (envMeterFactors (envCenter bop eop padDeg).2).2
  (max 0 (box.xmax - box.xmin) * (if mLon > 0 then mLon else 0),
   max 0 (box.ymax - box.ymin) * 111320)

open scoped Classical in
/-- Target side length in meters when no explicit side is given
(agol/agol_util.py:1402): `max(width_m, height_m) + margin_m`, replaced by
the 50 m safety size only when that value is ≤ 0. -/
noncomputable def envSideM (bop eop : ℝ × ℝ) (padDeg marginM : ℝ) : ℝ :=
  let wh := envWidthHeightM bop eop padDeg
  let s := max wh.1 wh.2 + marginM
  if s ≤ 0 then 50 else s

open scoped Classical in
/-- `AGOLRouteSegmentFinder._build_envelope_square_meters`
(agol/agol_util.py:1362): build a meter-true square envelope about the
center of the padded bbox of the two (lat, lon) points, clamped to valid
geographic ranges. -/
noncomputable def build_envelope_square_meters (bop eop : ℝ × ℝ) (padDeg : ℝ)
    (squareSideM : Option ℝ) (marginM : ℝ) : EnvelopeSq :=
  let cx := (envCenter bop eop padDeg).1
  let cy := (envCenter bop eop padDeg).2
  let mLon := (envMeterFactors cy).2
  let sideM :=
    match squareSideM with
    | none => envSideM bop eop padDeg marginM
    | some v => if max 0 v = 0 then 50 else max 0 v
  let halfDegLon := (sideM / (if mLon > 0 then mLon else 1000000000)) / 2
  let halfDegLat := (sideM / 111320) / 2
  { xmin := max (-180) (cx - halfDegLon)
    ymin := max (-90) (cy - halfDegLat)
    xmax := min 180 (cx + halfDegLon)
    ymax := min 90 (cy + halfDegLat) }

/-- Width of an envelope in meters, measured with the same local
meters-per-degree model the builder uses, at the envelope's own center
latitude. -/
noncomputable def envelope_width_m (env : EnvelopeSq) : ℝ :=
  (env.xmax - env.xmin) * (envMeterFactors ((env.ymin + env.ymax) / 2)).2

/-- Height of an envelope in meters under the same model. -/
noncomputable def envelope_height_m (env : EnvelopeSq) : ℝ :=
  (env.ymax - env.ymin) * 111320

/-- C5 counterexample: two reference points 1/10000 degree of longitude
apart on the equator, pad 0, no explicit side: the built envelope measures
about 11.132 m per side — far below the claimed 50 m floor, because the
code floors the side only when it is ≤ 0. -/
theorem envelope_below_50m :
    envelope_width_m (build_envelope_square_meters (0, 0) (0, 1 / 10000) 0 none 0) < 50 ∧
    envelope_height_m (build_envelope_square_meters (0, 0) (0, 1 / 10000) 0 none 0) < 50 := by
  have hpad : envPad (0 : ℝ) = 0 := by norm_num [envPad]
  have hbox : envBox ((0 : ℝ), (0 : ℝ)) ((0 : ℝ), 1 / 10000) 0 =
      { xmin := 0, ymin := 0, xmax := 1 / 10000, ymax := 0 } := by
    simp only [envBox, hpad]
    norm_num [min_def, max_def]
  have hcenter : envCenter ((0 : ℝ), (0 : ℝ)) ((0 : ℝ), 1 / 10000) 0 = (1 / 20000, 0) := by
    simp only [envCenter, hbox]
    norm_num
  have hfac : (envMeterFactors (0 : ℝ)).2 = 111320 := by
    simp only [envMeterFactors, radiansR]
    norm_num [Real.cos_zero]
  have hwh : envWidthHeightM ((0 : ℝ), (0 : ℝ)) ((0 : ℝ), 1 / 10000) 0 =
      (2783 / 250, 0) := by
    rw [envWidthHeightM]
    simp only [hbox, hcenter, hfac]
    norm_num
  have hside : envSideM ((0 : ℝ), (0 : ℝ)) ((0 : ℝ), 1 / 10000) 0 0 = 2783 / 250 := by
    rw [envSideM]
    simp only [hwh]
    norm_num [max_def]
  have henv : build_envelope_square_meters ((0 : ℝ), (0 : ℝ)) ((0 : ℝ), 1 / 10000) 0
      none 0 =
      { xmin := 0, ymin := -(1 / 20000), xmax := 1 / 10000, ymax := 1 / 20000 } := by
    rw [build_envelope_square_meters]
    simp only [hcenter, hfac, hside]
    norm_num [max_def, min_def]
  rw [henv]
  constructor
  · rw [envelope_width_m]
    have hc : ((-(1 / 20000) : ℝ) + 1 / 20000) / 2 = 0 := by norm_num
    simp only [hc, hfac]
    norm_num
  · rw [envelope_height_m]
    norm_num

/-- C5 (amended): with no explicit target side, margin 0, pad in [0,1] and
reference points within one degree of the origin (so that the lat/lon
clamps stay inactive), the built envelope measures exactly
`side_m = max(width_m, height_m)` meters per side under the builder's own
meters-per-degree model — and `side_m` is replaced by the 50 m safety value
only when `max(width_m, height_m) ≤ 0`, not whenever it is below 50. -/
theorem envelope_meter_sides (bop eop : ℝ × ℝ) (padDeg : ℝ)
    (hpad0 : 0 ≤ padDeg) (hpad1 : padDeg ≤ 1)
    (hb1 : |bop.1| ≤ 1) (hb2 : |bop.2| ≤ 1)
    (he1 : |eop.1| ≤ 1) (he2 : |eop.2| ≤ 1) :
    envelope_height_m (build_envelope_square_meters bop eop padDeg none 0) =
      envSideM bop eop padDeg 0 ∧
    envelope_width_m (build_envelope_square_meters bop eop padDeg none 0) =
      envSideM bop eop padDeg 0 ∧
    (envSideM bop eop padDeg 0 =
        max (envWidthHeightM bop eop padDeg).1 (envWidthHeightM bop eop padDeg).2 ∨
      (max (envWidthHeightM bop eop padDeg).1 (envWidthHeightM bop eop padDeg).2 ≤ 0 ∧
        envSideM bop eop padDeg 0 = 50)) := by
  obtain ⟨hb1a, hb1b⟩ := abs_le.mp hb1
  obtain ⟨hb2a, hb2b⟩ := abs_le.mp hb2
  obtain ⟨he1a, he1b⟩ := abs_le.mp he1
  obtain ⟨he2a, he2b⟩ := abs_le.mp he2
  have hpadeq : envPad padDeg = padDeg := if_neg (not_lt.mpr hpad0)
  -- degree box bounds
  have hxmin1 : -2 ≤ (envBox bop eop padDeg).xmin := by
    rw [envBox]
    simp only [hpadeq]
    have : -1 ≤ min bop.2 eop.2 := le_min hb2a he2a
    linarith
  have hxmin2 : (envBox bop eop padDeg).xmin ≤ 1 := by
    rw [envBox]
    simp only [hpadeq]
    have : min bop.2 eop.2 ≤ 1 := le_trans (min_le_left _ _) hb2b
    linarith
  have hxmax1 : -1 ≤ (envBox bop eop padDeg).xmax := by
    rw [envBox]
    simp only [hpadeq]
    have : -1 ≤ max bop.2 eop.2 := le_trans hb2a (le_max_left _ _)
    linarith
  have hxmax2 : (envBox bop eop padDeg).xmax ≤ 2 := by
    rw [envBox]
    simp only [hpadeq]
    have : max bop.2 eop.2 ≤ 1 := max_le hb2b he2b
    linarith
  have hymin1 : -2 ≤ (envBox bop eop padDeg).ymin := by
    rw [envBox]
    simp only [hpadeq]
    have : -1 ≤ min bop.1 eop.1 := le_min hb1a he1a
    linarith
  have hymin2 : (envBox bop eop padDeg).ymin ≤ 1 := by
    rw [envBox]
    simp only [hpadeq]
    have : min bop.1 eop.1 ≤ 1 := le_trans (min_le_left _ _) hb1b
    linarith
  have hymax1 : -1 ≤ (envBox bop eop padDeg).ymax := by
    rw [envBox]
    simp only [hpadeq]
    have : -1 ≤ max bop.1 eop.1 := le_trans hb1a (le_max_left _ _)
    linarith
  have hymax2 : (envBox bop eop padDeg).ymax ≤ 2 := by
    rw [envBox]
    simp only [hpadeq]
    have : max bop.1 eop.1 ≤ 1 := max_le hb1b he1b
    linarith
  have hxdiff0 : 0 ≤ (envBox bop eop padDeg).xmax - (envBox bop eop padDeg).xmin := by
    rw [envBox]
    simp only [hpadeq]
    have : min bop.2 eop.2 ≤ max bop.2 eop.2 := min_le_max
    linarith
  have hydiff0 : 0 ≤ (envBox bop eop padDeg).ymax - (envBox bop eop padDeg).ymin := by
    rw [envBox]
    simp only [hpadeq]
    have : min bop.1 eop.1 ≤ max bop.1 eop.1 := min_le_max
    linarith
  -- center bounds
  have hcx1 : -2 ≤ (envCenter bop eop padDeg).1 := by
    rw [envCenter]; simp only; linarith
  have hcx2 : (envCenter bop eop padDeg).1 ≤ 2 := by
    rw [envCenter]; simp only; linarith
  have hcy1 : -2 ≤ (envCenter bop eop padDeg).2 := by
    rw [envCenter]; simp only; linarith
  have hcy2 : (envCenter bop eop padDeg).2 ≤ 2 := by
    rw [envCenter]; simp only; linarith
  -- cosine of the center latitude is at least 1/2
  have hpi4 := Real.pi_le_four
  have hpi0 := Real.pi_pos
  have hp180 : (0 : ℝ) ≤ Real.pi / 180 := by positivity
  have hrad1 : -(2 / 45) ≤ radiansR (envCenter bop eop padDeg).2 := by
    rw [radiansR]
    have h1 : (-2 : ℝ) * (Real.pi / 180) ≤ (envCenter bop eop padDeg).2 * (Real.pi / 180) :=
      mul_le_mul_of_nonneg_right hcy1 hp180
    have h2 : (-(2 / 45) : ℝ) ≤ -2 * (Real.pi / 180) := by linarith
    linarith
  have hrad2 : radiansR (envCenter bop eop padDeg).2 ≤ 2 / 45 := by
    rw [radiansR]
    have h1 : (envCenter bop eop padDeg).2 * (Real.pi / 180) ≤ 2 * (Real.pi / 180) :=
      mul_le_mul_of_nonneg_right hcy2 hp180
    have h2 : (2 : ℝ) * (Real.pi / 180) ≤ 2 / 45 := by linarith
    linarith
  have hcos : (1 / 2 : ℝ) ≤ Real.cos (radiansR (envCenter bop eop padDeg).2) := by
    have hlow := Real.one_sub_sq_div_two_le_cos
      (x := radiansR (envCenter bop eop padDeg).2)
    have hsq : (radiansR (envCenter bop eop padDeg).2) ^ 2 ≤ (2 / 45) ^ 2 :=
      sq_le_sq' hrad1 hrad2
    nlinarith
  have hcos1 : Real.cos (radiansR (envCenter bop eop padDeg).2) ≤ 1 := Real.cos_le_one _
  have hmax_cos : max 0 (Real.cos (radiansR (envCenter bop eop padDeg).2)) =
      Real.cos (radiansR (envCenter bop eop padDeg).2) :=
    max_eq_right (by linarith)
  have hmLon_lb : 55660 ≤ (envMeterFactors (envCenter bop eop padDeg).2).2 := by
    rw [envMeterFactors]
    simp only [hmax_cos]
    linarith
  have hmLon_ub : (envMeterFactors (envCenter bop eop padDeg).2).2 ≤ 111320 := by
    rw [envMeterFactors]
    simp only [hmax_cos]
    linarith
  have hmLon_pos : (0 : ℝ) < (envMeterFactors (envCenter bop eop padDeg).2).2 := by
    linarith
  -- width/height in meters
  have hwidth0 : 0 ≤ (envWidthHeightM bop eop padDeg).1 := by
    rw [envWidthHeightM]
    simp only [if_pos hmLon_pos]
    exact mul_nonneg (le_max_left 0 _) hmLon_pos.le
  have hwidth1 : (envWidthHeightM bop eop padDeg).1 ≤ 445280 := by
    rw [envWidthHeightM]
    simp only [if_pos hmLon_pos]
    have h1 : max 0 ((envBox bop eop padDeg).xmax - (envBox bop eop padDeg).xmin) ≤ 4 :=
      max_le (by norm_num) (by linarith)
    have h2 : 0 ≤ max 0 ((envBox bop eop padDeg).xmax - (envBox bop eop padDeg).xmin) :=
      le_max_left 0 _
    calc max 0 ((envBox bop eop padDeg).xmax - (envBox bop eop padDeg).xmin) *
          (envMeterFactors (envCenter bop eop padDeg).2).2 ≤ 4 * 111320 :=
        mul_le_mul h1 hmLon_ub hmLon_pos.le (by norm_num)
      _ = 445280 := by norm_num
  have hheight0 : 0 ≤ (envWidthHeightM bop eop padDeg).2 := by
    rw [envWidthHeightM]
    simp only
    exact mul_nonneg (le_max_left 0 _) (by norm_num)
  have hheight1 : (envWidthHeightM bop eop padDeg).2 ≤ 445280 := by
    rw [envWidthHeightM]
    simp only
    have h1 : max 0 ((envBox bop eop padDeg).ymax - (envBox bop eop padDeg).ymin) ≤ 4 :=
      max_le (by norm_num) (by linarith)
    calc max 0 ((envBox bop eop padDeg).ymax - (envBox bop eop padDeg).ymin) * 111320 ≤
          4 * 111320 := mul_le_mul_of_nonneg_right h1 (by norm_num)
      _ = 445280 := by norm_num
  -- side bounds
  have hside_pos : 0 < envSideM bop eop padDeg 0 := by
    rw [envSideM]
    split
    · norm_num
    · rename_i hle
      push_neg at hle
      linarith
  have hside_ub : envSideM bop eop padDeg 0 ≤ 445280 := by
    rw [envSideM]
    split
    · norm_num
    · have : max (envWidthHeightM bop eop padDeg).1 (envWidthHeightM bop eop padDeg).2 ≤
          445280 := max_le hwidth1 hheight1
      linarith
  -- half-widths
  have hhalfLon_ub : (envSideM bop eop padDeg 0 /
      (envMeterFactors (envCenter bop eop padDeg).2).2) / 2 ≤ 4 := by
    have h1 : envSideM bop eop padDeg 0 /
        (envMeterFactors (envCenter bop eop padDeg).2).2 ≤ 8 := by
      rw [div_le_iff₀ hmLon_pos]
      linarith
    linarith
  have hhalfLon_pos : 0 < (envSideM bop eop padDeg 0 /
      (envMeterFactors (envCenter bop eop padDeg).2).2) / 2 := by
    positivity
  have hhalfLat_ub : (envSideM bop eop padDeg 0 / 111320) / 2 ≤ 2 := by
    have h1 : envSideM bop eop padDeg 0 / 111320 ≤ 4 := by
      rw [div_le_iff₀ (by norm_num : (0:ℝ) < 111320)]
      linarith
    linarith
  have hhalfLat_pos : 0 < (envSideM bop eop padDeg 0 / 111320) / 2 := by
    positivity
  -- the built envelope with the clamps removed
  have hbuild : build_envelope_square_meters bop eop padDeg none 0 =
      { xmin := (envCenter bop eop padDeg).1 -
          (envSideM bop eop padDeg 0 / (envMeterFactors (envCenter bop eop padDeg).2).2) / 2
        ymin := (envCenter bop eop padDeg).2 - (envSideM bop eop padDeg 0 / 111320) / 2
        xmax := (envCenter bop eop padDeg).1 +
          (envSideM bop eop padDeg 0 / (envMeterFactors (envCenter bop eop padDeg).2).2) / 2
        ymax := (envCenter bop eop padDeg).2 + (envSideM bop eop padDeg 0 / 111320) / 2 } := by
    rw [build_envelope_square_meters]
    simp only [if_pos hmLon_pos]
    congr 1
    · exact max_eq_right (by linarith)
    · exact max_eq_right (by linarith)
    · exact min_eq_right (by linarith)
    · exact min_eq_right (by linarith)
  rw [hbuild]
  refine ⟨?_, ?_, ?_⟩
  · rw [envelope_height_m]
    simp only
    field_simp
    ring
  · rw [envelope_width_m]
    simp only
    have hcenter_eq : (((envCenter bop eop padDeg).2 -
        (envSideM bop eop padDeg 0 / 111320) / 2) +
        ((envCenter bop eop padDeg).2 + (envSideM bop eop padDeg 0 / 111320) / 2)) / 2 =
        (envCenter bop eop padDeg).2 := by ring
    rw [hcenter_eq]
    have hdiff : ((envCenter bop eop padDeg).1 +
        (envSideM bop eop padDeg 0 / (envMeterFactors (envCenter bop eop padDeg).2).2) / 2) -
        ((envCenter bop eop padDeg).1 -
        (envSideM bop eop padDeg 0 / (envMeterFactors (envCenter bop eop padDeg).2).2) / 2) =
        envSideM bop eop padDeg 0 / (envMeterFactors (envCenter bop eop padDeg).2).2 := by
      ring
    rw [hdiff]
    field_simp
  · rw [envSideM]
    split
    · rename_i hle
      right
      constructor
      · linarith
      · rfl
    · left
      ring

/-- Witness for the C5 theorem at the counterexample's concrete input. -/
theorem envelope_meter_sides_witness :
    ((0 : ℝ) ≤ 0 ∧ |((0 : ℝ), (1 / 10000 : ℝ)).2| ≤ 1) ∧
    (envelope_height_m (build_envelope_square_meters (0, 0) (0, 1 / 10000) 0 none 0) =
        envSideM (0, 0) (0, 1 / 10000) 0 0 ∧
      envelope_width_m (build_envelope_square_meters (0, 0) (0, 1 / 10000) 0 none 0) =
        envSideM (0, 0) (0, 1 / 10000) 0 0 ∧
      (envSideM (0, 0) (0, 1 / 10000) 0 0 =
          max (envWidthHeightM (0, 0) (0, 1 / 10000) 0).1
            (envWidthHeightM (0, 0) (0, 1 / 10000) 0).2 ∨
        (max (envWidthHeightM (0, 0) (0, 1 / 10000) 0).1
            (envWidthHeightM (0, 0) (0, 1 / 10000) 0).2 ≤ 0 ∧
          envSideM (0, 0) (0, 1 / 10000) 0 0 = 50))) :=
  ⟨⟨le_refl 0, (by rw [abs_of_pos (by norm_num : (0 : ℝ) < 1 / 10000)]; norm_num : |(1 / 10000 : ℝ)| ≤ 1)⟩,
    envelope_meter_sides (0, 0) (0, 1 / 10000) 0 le_rfl (by norm_num)
      (by rw [abs_zero]; norm_num : |(0 : ℝ)| ≤ 1) (by rw [abs_zero]; norm_num : |(0 : ℝ)| ≤ 1)
      (by rw [abs_zero]; norm_num : |(0 : ℝ)| ≤ 1) (by rw [abs_of_pos (by norm_num : (0 : ℝ) < 1 / 10000)]; norm_num : |(1 / 10000 : ℝ)| ≤ 1)⟩

/-- A feature returned by the routes layer: an attribute mapping plus an
optional polyline geometry (`paths` of [lon, lat] pairs).  A missing
`attributes` dict is the empty mapping, as in
`rec["feature"].get("attributes") or {}`. -/
structure Feature where
  attributes : List (String × Int)
  geometry : Option (List (List (ℝ × ℝ)))

/-- `attrs.get("OBJECTID")`; Python's `None` is `none`. -/
def oidOf (f : Feature) : Option Int := f.attributes.lookup "OBJECTID"

/-- `AGOLRouteSegmentFinder._meters_per_degree` (agol/agol_util.py:1492):
sphere-radius-based factors, unlike the 111320-based ones used by the
envelope builder. -/
noncomputable def meters_per_degree_finder (latDeg : ℝ) : ℝ × ℝ :=
  let R := (6371008.8 : ℝ)
  let deg2rad := Real.pi / 180
  (R * deg2rad, R * Real.cos (latDeg * deg2rad) * deg2rad)

open scoped Classical in
/-- `AGOLRouteSegmentFinder._point_segment_distance_m`
(agol/agol_util.py:1499): point-to-segment distance in a local
equirectangular frame about the mean latitude of the three points; inputs
are lon/lat degrees. -/
noncomputable def point_segment_distance_m (px py x1 y1 x2 y2 : ℝ) : ℝ :=
  let lat0 := (py + y1 + y2) / 3
  let m := meters_per_degree_finder lat0
  let pxm := px * m.2
  let pym := py * m.1
  let ax := x1 * m.2
  let ay := y1 * m.1
  let bx := x2 * m.2
  let by2 := y2 * m.1
  let abx := bx - ax
  let aby := by2 - ay
  let apx := pxm - ax
  let apy := pym - ay
  let ab2 := abx * abx + aby * aby
  if ab2 = 0 then hypot apx apy
  else
    let t0 := (apx * abx + apy * aby) / ab2
    let t := if t0 < 0 then 0 else if t0 > 1 then 1 else t0
    let cx := ax + t * abx
    let cy := ay + t * aby
    hypot (pxm - cx) (pym - cy)

open scoped Classical in
/-- `AGOLRouteSegmentFinder._min_point_to_polyline_distance_m`
(agol/agol_util.py:1610): minimum over all segments of all paths, `none`
when there are no paths (and hence when there are no segments the running
best stays `none`). -/
noncomputable def min_point_to_polyline_distance_m
    (paths : List (List (ℝ × ℝ))) (pt : ℝ × ℝ) : Option ℝ :=
  if paths.isEmpty then none
  else
    paths.foldl (fun best path =>
      (path.zip path.tail).foldl (fun best seg =>
        let d := point_segment_distance_m pt.2 pt.1 seg.1.1 seg.1.2 seg.2.1 seg.2.2
        match best with
        | none => some d
        | some b => if d < b then some d else some b) best) none

/-- One entry of `bop_matches`/`eop_matches`. -/
structure MatchRec where
  objectid : Option Int
  distance_m : ℝ

open scoped Classical in
/-- The per-point match loop of `select_and_merge_point_routes`
(agol/agol_util.py:1687): record every clipped candidate whose minimum
distance to the point is defined and within tolerance. -/
noncomputable def matchesFor :
    List (Feature × List (List (ℝ × ℝ))) → (ℝ × ℝ) → ℝ → List MatchRec
  | [], _, _ => []
  | rec :: rest, pt, tolM =>
      match min_point_to_polyline_distance_m rec.2 pt with
      | some d =>
          if d ≤ tolM then ⟨oidOf rec.1, d⟩ :: matchesFor rest pt tolM
          else matchesFor rest pt tolM
      | none => matchesFor rest pt tolM

/-- The OBJECTID-keyed selection test of agol/agol_util.py:1707: a
candidate is included when its OBJECTID value appears in either match
list. -/
noncomputable def isSelected (bopM eopM : List MatchRec)
    (rec : Feature × List (List (ℝ × ℝ))) : Bool :=
  bopM.any (fun m => m.objectid == oidOf rec.1) ||
    eopM.any (fun m => m.objectid == oidOf rec.1)

open scoped Classical in
/-- Direct predicate used to state the selection policy: the candidate's
own minimum distance to the point is defined and within tolerance. -/
noncomputable def withinTol (paths : List (List (ℝ × ℝ))) (pt : ℝ × ℝ) (tolM : ℝ) : Bool :=
  match min_point_to_polyline_distance_m paths pt with
  | some d => decide (d ≤ tolM)
  | none => false

open scoped Classical in
/-- The clip-and-keep loop of `select_and_merge_point_routes`
(agol/agol_util.py:1659): keep candidates with nonempty geometry whose
clipped result is nonempty. -/
noncomputable def clippedCandidates :
    List Feature → EnvelopeSq → List (Feature × List (List (ℝ × ℝ)))
  | [], _ => []
  | f :: rest, env =>
      let tail := clippedCandidates rest env
      match f.geometry with
      | none => tail
      | some g =>
          if g.isEmpty then tail
          else
            match clip_polyline_to_bbox g env.xmin env.ymin env.xmax env.ymax with
            | none => tail
            | some cg => if cg.isEmpty then tail else (f, cg) :: tail

/-- The result dictionary of `select_and_merge_point_routes`. -/
structure MatcherResult where
  success : Bool
  message : String
  merged_geometry : Option (List (List (ℝ × ℝ)))
  selected_objectids : List Int
  bop_matches : List MatchRec
  eop_matches : List MatchRec

/-- Python f-string float rendering, modelled as an unspecified fixed
placeholder: the claims only rely on the surrounding message text being
nonempty, never on the rendered digits. -/
def formatReal (_ : ℝ) : String := "?"

open scoped Classical in
/-- The `selected_indices` set of `select_and_merge_point_routes`
(agol/agol_util.py:1701-1712), listed in its insertion (ascending index)
order. -/
noncomputable def selectedIndices (bopM eopM : List MatchRec)
    (clipped : List (Feature × List (List (ℝ × ℝ)))) : List Nat :=
  (List.range clipped.length).filter
    (fun i => ((clipped[i]?).map (isSelected bopM eopM)).getD false)

/-- The merge loop of `select_and_merge_point_routes`
(agol/agol_util.py:1728-1730): concatenate the clipped paths of the
selected candidates, visiting the `selected_indices` set in the iteration
order produced by `setIter`. -/
noncomputable def mergedPathsFor (setIter : List Nat → List Nat)
    (clipped : List (Feature × List (List (ℝ × ℝ)))) (sel : List Nat) :
    List (List (ℝ × ℝ)) :=
  (setIter sel).flatMap (fun i => ((clipped[i]?).map (fun rec => rec.2)).getD [])

open scoped Classical in
/-- `AGOLRouteSegmentFinder.select_and_merge_point_routes`
(agol/agol_util.py:1628).  The paginated remote query (a network call) is
the `remote` parameter; an `Except.error` models any exception reaching
the method's catch-all handler.  The merge loop at agol/agol_util.py:1729
iterates the `selected_indices` *set*, whose CPython iteration order is
hash-slot order, not necessarily insertion order: the `setIter` parameter
maps the set's elements (listed in insertion order) to the order the
`for` loop visits them, so theorems quantify over every possible order
and constrain `setIter` at most to a permutation. -/
noncomputable def select_and_merge_point_routes
    (setIter : List Nat → List Nat)
    (remote : EnvelopeSq → Except String (List Feature))
    (bop eop : ℝ × ℝ) (padDeg tolM : ℝ) : MatcherResult :=
  let envelope := build_envelope_square_meters bop eop padDeg none 0
  match remote envelope with
  | .error e =>
      { success := false
        message := "Error during select_and_merge_point_routes: " ++ e
        merged_geometry := none
        selected_objectids := []
        bop_matches := []
        eop_matches := [] }
  | .ok features =>
      if features.isEmpty then
        { success := false
          message := "No route features found in bounding box."
          merged_geometry := none
          selected_objectids := []
          bop_matches := []
          eop_matches := [] }
      else
        let clipped := clippedCandidates features envelope
        if clipped.isEmpty then
          { success := false
            message := "No clipped route geometry inside the bounding box."
            merged_geometry := none
            selected_objectids := []
            bop_matches := []
            eop_matches := [] }
        else
          let bopM := matchesFor clipped bop tolM
          let eopM := matchesFor clipped eop tolM
          if clipped.any (isSelected bopM eopM) = false then
            { success := false
              message := "No route segment within " ++ formatReal tolM ++
                " m of either point."
              merged_geometry := none
              selected_objectids := []
              bop_matches := bopM
              eop_matches := eopM }
          else
            { success := true
              message := "Merged route segments for points computed successfully."
              merged_geometry := some
                (mergedPathsFor setIter clipped (selectedIndices bopM eopM clipped))
              selected_objectids := clipped.filterMap
                (fun rec => if isSelected bopM eopM rec then oidOf rec.1 else none)
              bop_matches := bopM
              eop_matches := eopM }

/-- C10: matcher totality.  For every remote behavior — including raised
errors, modelled by the `Except.error` case — the matcher returns a full
result record, and whenever `success` is false the merged geometry is
`None` and the message is nonempty. -/
theorem select_and_merge_total (setIter : List Nat → List Nat)
    (remote : EnvelopeSq → Except String (List Feature))
    (bop eop : ℝ × ℝ) (padDeg tolM : ℝ)
    (hfail : (select_and_merge_point_routes setIter remote bop eop padDeg tolM).success
      = false) :
    (select_and_merge_point_routes setIter remote bop eop padDeg tolM).merged_geometry
      = none ∧
    (select_and_merge_point_routes setIter remote bop eop padDeg tolM).message ≠ "" := by
  unfold select_and_merge_point_routes at hfail ⊢
  dsimp only at hfail ⊢
  rcases hrem : remote (build_envelope_square_meters bop eop padDeg none 0) with e | features
  · simp only [hrem] at hfail ⊢
    refine ⟨by trivial, ?_⟩
    intro hcon
    have hlen := congrArg String.length hcon
    rw [String.length_append] at hlen
    have h1 : (0 : Nat) < "Error during select_and_merge_point_routes: ".length := by decide
    simp only [String.length_empty] at hlen
    omega
  · simp only [hrem] at hfail ⊢
    by_cases h1 : features.isEmpty
    · simp only [if_pos h1] at hfail ⊢
      exact ⟨by trivial, by decide⟩
    · simp only [if_neg h1] at hfail ⊢
      by_cases h2 : (clippedCandidates features
          (build_envelope_square_meters bop eop padDeg none 0)).isEmpty
      · simp only [if_pos h2] at hfail ⊢
        exact ⟨by trivial, by decide⟩
      · simp only [if_neg h2] at hfail ⊢
        by_cases h3 : (clippedCandidates features
            (build_envelope_square_meters bop eop padDeg none 0)).any
            (isSelected
              (matchesFor (clippedCandidates features
                (build_envelope_square_meters bop eop padDeg none 0)) bop tolM)
              (matchesFor (clippedCandidates features
                (build_envelope_square_meters bop eop padDeg none 0)) eop tolM)) = false
        · simp only [if_pos h3] at hfail ⊢
          refine ⟨by trivial, ?_⟩
          intro hcon
          rw [show formatReal tolM = "?" from rfl] at hcon
          exact absurd hcon (by decide)
        · simp only [if_neg h3] at hfail ⊢
          exact absurd hfail (by decide)

/-- Witness for the C10 theorem with a remote call that raises. -/
theorem select_and_merge_total_witness :
    (select_and_merge_point_routes id (fun _ => .error "connection reset") (0, 0) (0, 0)
      (1 / 2000) 15).success = false ∧
    ((select_and_merge_point_routes id (fun _ => .error "connection reset") (0, 0) (0, 0)
      (1 / 2000) 15).merged_geometry = none ∧
    (select_and_merge_point_routes id (fun _ => .error "connection reset") (0, 0) (0, 0)
      (1 / 2000) 15).message ≠ "") :=
  ⟨rfl, select_and_merge_total id (fun _ => .error "connection reset") (0, 0) (0, 0)
    (1 / 2000) 15 rfl⟩

theorem matchesFor_mem {clipped : List (Feature × List (List (ℝ × ℝ)))}
    {pt : ℝ × ℝ} {tolM : ℝ} {m : MatchRec} (h : m ∈ matchesFor clipped pt tolM) :
    ∃ rec ∈ clipped, m.objectid = oidOf rec.1 := by
  induction clipped with
  | nil => simp [matchesFor] at h
  | cons c rest ih =>
    rw [matchesFor] at h
    rcases hd : min_point_to_polyline_distance_m c.2 pt with _ | d
    · rw [hd] at h
      obtain ⟨r, hr, heq⟩ := ih h
      exact ⟨r, List.mem_cons_of_mem c hr, heq⟩
    · rw [hd] at h
      dsimp only at h
      split at h
      · rcases List.mem_cons.mp h with rfl | h2
        · exact ⟨c, List.mem_cons_self c rest, rfl⟩
        · obtain ⟨r, hr, heq⟩ := ih h2
          exact ⟨r, List.mem_cons_of_mem c hr, heq⟩
      · obtain ⟨r, hr, heq⟩ := ih h
        exact ⟨r, List.mem_cons_of_mem c hr, heq⟩

/-- With pairwise-distinct OBJECTID values among the clipped candidates,
the OBJECTID-membership test against a point's match list is equivalent to
the candidate's own distance being within tolerance. -/
theorem any_matches_iff (clipped : List (Feature × List (List (ℝ × ℝ))))
    (pt : ℝ × ℝ) (tolM : ℝ) (rec0 : Feature × List (List (ℝ × ℝ)))
    (hmem : rec0 ∈ clipped)
    (hinj : clipped.Pairwise (fun a b => oidOf a.1 ≠ oidOf b.1)) :
    (matchesFor clipped pt tolM).any (fun m => m.objectid == oidOf rec0.1) =
      withinTol rec0.2 pt tolM := by
  induction clipped with
  | nil => cases hmem
  | cons c rest ih =>
    obtain ⟨hhead, hrest⟩ := List.pairwise_cons.mp hinj
    have hothers : ∀ m ∈ matchesFor rest pt tolM,
        (m.objectid == oidOf c.1) = false := by
      intro m hm
      obtain ⟨r, hr, heq⟩ := matchesFor_mem hm
      rw [heq]
      exact beq_eq_false_iff_ne.mpr (fun hc => hhead r hr hc.symm)
    rcases List.mem_cons.mp hmem with rfl | hmem2
    · rw [matchesFor, withinTol]
      rcases hd : min_point_to_polyline_distance_m rec0.2 pt with _ | d
      · simp only
        rw [List.any_eq_false.mpr]
        intro m hm
        simp only [Bool.not_eq_true]
        exact hothers m hm
      · simp only
        split
        · rename_i hle
          simp only [List.any_cons, beq_self_eq_true, Bool.true_or]
          exact (decide_eq_true hle).symm
        · rename_i hle
          rw [List.any_eq_false.mpr, eq_comm]
          · simp only [decide_eq_false_iff_not]
            exact hle
          · intro m hm
            simp only [Bool.not_eq_true]
            exact hothers m hm
    · have hne : (oidOf c.1 == oidOf rec0.1) = false :=
        beq_eq_false_iff_ne.mpr (hhead rec0 hmem2)
      rw [matchesFor]
      rcases hd : min_point_to_polyline_distance_m c.2 pt with _ | d
      · exact ih hmem2 hrest
      · dsimp only
        split
        · rw [List.any_cons]
          simp only [hne, Bool.false_or]
          exact ih hmem2 hrest
        · exact ih hmem2 hrest

theorem isSelected_eq_withinTol (clipped : List (Feature × List (List (ℝ × ℝ))))
    (bop eop : ℝ × ℝ) (tolM : ℝ) (rec0 : Feature × List (List (ℝ × ℝ)))
    (hmem : rec0 ∈ clipped)
    (hinj : clipped.Pairwise (fun a b => oidOf a.1 ≠ oidOf b.1)) :
    isSelected (matchesFor clipped bop tolM) (matchesFor clipped eop tolM) rec0 =
      (withinTol rec0.2 bop tolM || withinTol rec0.2 eop tolM) := by
  rw [isSelected, any_matches_iff clipped bop tolM rec0 hmem hinj,
    any_matches_iff clipped eop tolM rec0 hmem hinj]

/-- Visiting the selected indices in their insertion (ascending) order and
concatenating the indexed candidates' paths is the same as filtering the
candidate list by the selection test and concatenating. -/
theorem selectedIndices_flatMap (bopM eopM : List MatchRec)
    (clipped : List (Feature × List (List (ℝ × ℝ)))) :
    (selectedIndices bopM eopM clipped).flatMap
      (fun i => ((clipped[i]?).map (fun rec => rec.2)).getD []) =
    (clipped.filter (isSelected bopM eopM)).flatMap (fun rec => rec.2) := by
  induction clipped with
  | nil => rfl
  | cons c rest ih =>
    simp only [selectedIndices] at ih
    rcases hc : isSelected bopM eopM c with _ | _
    · simp only [selectedIndices, List.length_cons, List.range_succ_eq_map,
        List.filter_cons, List.getElem?_cons_zero, Option.map_some', Option.getD_some,
        hc, Bool.false_eq_true, if_false, List.filter_map, List.flatMap_map,
        Function.comp_def, List.getElem?_cons_succ, ih]
    · simp only [selectedIndices, List.length_cons, List.range_succ_eq_map,
        List.filter_cons, List.getElem?_cons_zero, Option.map_some', Option.getD_some,
        hc, if_true, List.flatMap_cons, List.filter_map, List.flatMap_map,
        Function.comp_def, List.getElem?_cons_succ, ih]

/-- C3 (amended): any-match selection policy.  Provided the clipped
candidates carry pairwise-distinct OBJECTID values, the merged geometry
consists of exactly the clipped paths of precisely those candidates whose
own minimum distance to the begin point or to the end point is within
tolerance (an empty selection yields no merged geometry, read as the
empty concatenation): it is a permutation of their in-order
concatenation, where the only freedom is the iteration order of the
CPython `selected_indices` set — modelled by `setIter`, constrained to a
permutation, which is all CPython guarantees about a set's hash-slot
order.  Without the distinctness proviso the claim fails: see the
counterexample, where OBJECTID-keyed matching also merges a candidate
farther than the tolerance. -/
theorem matcher_any_match_selection
    (setIter : List Nat → List Nat) (hperm : ∀ l, (setIter l).Perm l)
    (remote : EnvelopeSq → Except String (List Feature)) (features : List Feature)
    (bop eop : ℝ × ℝ) (padDeg tolM : ℝ)
    (hremote : remote (build_envelope_square_meters bop eop padDeg none 0) = .ok features)
    (hinj : (clippedCandidates features
        (build_envelope_square_meters bop eop padDeg none 0)).Pairwise
      (fun a b => oidOf a.1 ≠ oidOf b.1)) :
    ((select_and_merge_point_routes setIter remote bop eop padDeg
        tolM).merged_geometry.getD []).Perm
      (((clippedCandidates features
          (build_envelope_square_meters bop eop padDeg none 0)).filter
        (fun rec => withinTol rec.2 bop tolM || withinTol rec.2 eop tolM)).flatMap
        (fun rec => rec.2)) := by
  unfold select_and_merge_point_routes
  dsimp only
  simp only [hremote]
  by_cases h1 : features.isEmpty
  · simp only [if_pos h1]
    obtain rfl := List.isEmpty_iff.mp h1
    simp [clippedCandidates]
  · simp only [if_neg h1]
    by_cases h2 : (clippedCandidates features
        (build_envelope_square_meters bop eop padDeg none 0)).isEmpty
    · simp only [if_pos h2]
      rw [List.isEmpty_iff.mp h2]
      simp
    · simp only [if_neg h2]
      have hsel : ∀ rec ∈ clippedCandidates features
          (build_envelope_square_meters bop eop padDeg none 0),
          isSelected
            (matchesFor (clippedCandidates features
              (build_envelope_square_meters bop eop padDeg none 0)) bop tolM)
            (matchesFor (clippedCandidates features
              (build_envelope_square_meters bop eop padDeg none 0)) eop tolM) rec =
            (withinTol rec.2 bop tolM || withinTol rec.2 eop tolM) :=
        fun rec hr => isSelected_eq_withinTol _ bop eop tolM rec hr hinj
      by_cases h3 : (clippedCandidates features
          (build_envelope_square_meters bop eop padDeg none 0)).any
          (isSelected
            (matchesFor (clippedCandidates features
              (build_envelope_square_meters bop eop padDeg none 0)) bop tolM)
            (matchesFor (clippedCandidates features
              (build_envelope_square_meters bop eop padDeg none 0)) eop tolM)) = false
      · simp only [if_pos h3]
        have hnil : (clippedCandidates features
            (build_envelope_square_meters bop eop padDeg none 0)).filter
            (fun rec => withinTol rec.2 bop tolM || withinTol rec.2 eop tolM) = [] := by
          rw [List.filter_eq_nil_iff]
          intro rec hr
          have := List.any_eq_false.mp h3 rec hr
          rw [hsel rec hr] at this
          simpa using this
        rw [hnil]
        simp
      · simp only [if_neg h3]
        simp only [Option.getD_some]
        rw [← List.filter_congr hsel, ← selectedIndices_flatMap]
        unfold mergedPathsFor
        exact List.Perm.flatMap_right _ (hperm _)

theorem env0_eval :
    build_envelope_square_meters ((0 : ℝ), (0 : ℝ)) ((0 : ℝ), (0 : ℝ)) (1 / 2000) none 0 =
      { xmin := -(1 / 2000), ymin := -(1 / 2000), xmax := 1 / 2000, ymax := 1 / 2000 } := by
  have hpad : envPad ((1 : ℝ) / 2000) = 1 / 2000 := by norm_num [envPad]
  have hbox : envBox ((0 : ℝ), (0 : ℝ)) ((0 : ℝ), (0 : ℝ)) (1 / 2000) =
      { xmin := -(1 / 2000), ymin := -(1 / 2000), xmax := 1 / 2000, ymax := 1 / 2000 } := by
    simp only [envBox, hpad]
    norm_num
  have hcenter : envCenter ((0 : ℝ), (0 : ℝ)) ((0 : ℝ), (0 : ℝ)) (1 / 2000) = (0, 0) := by
    simp only [envCenter, hbox]
    norm_num
  have hfac : (envMeterFactors (0 : ℝ)).2 = 111320 := by
    simp only [envMeterFactors, radiansR]
    norm_num [Real.cos_zero]
  have hwh : envWidthHeightM ((0 : ℝ), (0 : ℝ)) ((0 : ℝ), (0 : ℝ)) (1 / 2000) =
      (2783 / 25, 2783 / 25) := by
    rw [envWidthHeightM]
    simp only [hbox, hcenter, hfac]
    norm_num
  have hside : envSideM ((0 : ℝ), (0 : ℝ)) ((0 : ℝ), (0 : ℝ)) (1 / 2000) 0 = 2783 / 25 := by
    rw [envSideM]
    simp only [hwh]
    norm_num [max_def]
  rw [build_envelope_square_meters]
  simp only [hcenter, hfac, hside]
  norm_num [max_def, min_def]

theorem clip_polyline_single_inside {α : Type} [LinearOrderedField α]
    (xmin ymin xmax ymax a b c d : α)
    (h1 : outcode xmin ymin xmax ymax a b = 0)
    (h2 : outcode xmin ymin xmax ymax c d = 0) :
    clip_polyline_to_bbox [[(a, b), (c, d)]] xmin ymin xmax ymax =
      some [[(a, b), (c, d)]] := by
  have hseg : clip_segment_to_bbox a b c d xmin ymin xmax ymax = some (a, b, c, d) := by
    rw [clip_segment_to_bbox]
    show clipSegmentLoop xmin ymin xmax ymax (7 + 1) a b c d = some (a, b, c, d)
    rw [clipSegmentLoop]
    simp only [h1, h2]
    norm_num
  simp [clip_polyline_to_bbox, clipOnePath, clipPolyStep, hseg]

/-- The two clipped-candidate records for the concrete counterexample and
witness scenarios: both segments lie inside the tiny envelope about the
origin, so clipping keeps them unchanged. -/
theorem clippedCandidates_pair_eval (a1 a2 : List (String × Int)) :
    clippedCandidates
      [⟨a1, some [[(0, 0), (1 / 5000, 0)]]⟩, ⟨a2, some [[(3 / 10000, 0), (1 / 2000, 0)]]⟩]
      { xmin := -(1 / 2000), ymin := -(1 / 2000), xmax := 1 / 2000, ymax := 1 / 2000 } =
      [(⟨a1, some [[(0, 0), (1 / 5000, 0)]]⟩, [[(0, 0), (1 / 5000, 0)]]),
       (⟨a2, some [[(3 / 10000, 0), (1 / 2000, 0)]]⟩, [[(3 / 10000, 0), (1 / 2000, 0)]])] := by
  have hA := clip_polyline_single_inside (-(1 / 2000) : ℝ) (-(1 / 2000)) (1 / 2000)
    (1 / 2000) 0 0 (1 / 5000) 0 (by norm_num [outcode]) (by norm_num [outcode])
  have hB := clip_polyline_single_inside (-(1 / 2000) : ℝ) (-(1 / 2000)) (1 / 2000)
    (1 / 2000) (3 / 10000) 0 (1 / 2000) 0 (by norm_num [outcode]) (by norm_num [outcode])
  simp only [clippedCandidates, hA, hB]
  simp

/-- Distance from a point on the equator to a horizontal equator segment
entirely to its right: the projection clamps to the segment start, giving
`(x1 - px)` degrees scaled by the finder's meters-per-degree. -/
theorem psd_left_of_horizontal (px x1 x2 : ℝ) (h1 : px ≤ x1) (h2 : x1 < x2) :
    point_segment_distance_m px 0 x1 0 x2 0 =
      (x1 - px) * (6371008.8 * (Real.pi / 180)) := by
  have hM : (0 : ℝ) < 6371008.8 * (Real.pi / 180) := by positivity
  unfold point_segment_distance_m meters_per_degree_finder
  dsimp only
  rw [show ((0 : ℝ) + 0 + 0) / 3 * (Real.pi / 180) = 0 by norm_num, Real.cos_zero, mul_one]
  set M : ℝ := 6371008.8 * (Real.pi / 180) with hMdef
  have hd : (0 : ℝ) < (x2 - x1) * M := mul_pos (by linarith) hM
  have hden : (0 : ℝ) < (x2 * M - x1 * M) * (x2 * M - x1 * M) +
      (0 * M - 0 * M) * (0 * M - 0 * M) := by nlinarith [mul_pos hd hd]
  rw [if_neg hden.ne']
  set T : ℝ := ((px * M - x1 * M) * (x2 * M - x1 * M) +
      (0 * M - 0 * M) * (0 * M - 0 * M)) /
      ((x2 * M - x1 * M) * (x2 * M - x1 * M) +
        (0 * M - 0 * M) * (0 * M - 0 * M)) with hTdef
  have hT : T ≤ 0 := by
    rw [hTdef]
    apply div_nonpos_of_nonpos_of_nonneg
    · nlinarith [mul_nonneg (mul_nonneg (sub_nonneg.mpr h1)
        (by linarith : (0 : ℝ) ≤ x2 - x1)) (mul_nonneg hM.le hM.le)]
    · exact hden.le
  have hTite : (if T < 0 then (0 : ℝ) else if T > 1 then 1 else T) = 0 := by
    rcases lt_or_eq_of_le hT with hlt | heq
    · rw [if_pos hlt]
    · rw [if_neg (by rw [heq]; norm_num), if_neg (by rw [heq]; norm_num)]
      exact heq
  rw [hTite]
  unfold hypot
  rw [show px * M - (x1 * M + 0 * (x2 * M - x1 * M)) = -((x1 - px) * M) by ring]
  rw [show (0 : ℝ) * M - (0 * M + 0 * (0 * M - 0 * M)) = 0 by ring]
  rw [show -((x1 - px) * M) * -((x1 - px) * M) + 0 * 0 = ((x1 - px) * M) ^ 2 by ring]
  exact Real.sqrt_sq (mul_nonneg (by linarith) hM.le)

theorem min_single_seg (a b c d : ℝ) (pt : ℝ × ℝ) :
    min_point_to_polyline_distance_m [[(a, b), (c, d)]] pt =
      some (point_segment_distance_m pt.2 pt.1 a b c d) := rfl

/-- C3 counterexample: two route features share OBJECTID 1.  The first one
passes within 0 m of both reference points; the second one stays about
31.9 m away — beyond the 15 m tolerance — yet its clipped geometry is
merged into the result, because the selection test keys on OBJECTID and the
first feature's match entry vouches for both. -/
theorem matcher_shared_objectid_overselects :
    (select_and_merge_point_routes id
        (fun _ => .ok [⟨[("OBJECTID", 1)], some [[(0, 0), (1 / 5000, 0)]]⟩,
          ⟨[("OBJECTID", 1)], some [[(3 / 10000, 0), (1 / 2000, 0)]]⟩])
        ((0 : ℝ), (0 : ℝ)) ((0 : ℝ), (0 : ℝ)) (1 / 2000) 15).merged_geometry =
      some [[(0, 0), (1 / 5000, 0)], [(3 / 10000, 0), (1 / 2000, 0)]] ∧
    (15 : ℝ) <
      (min_point_to_polyline_distance_m [[((3 / 10000 : ℝ), 0), (1 / 2000, 0)]]
        ((0 : ℝ), (0 : ℝ))).getD 0 := by
  have hgt : (15 : ℝ) < 3 / 10000 * (6371008.8 * (Real.pi / 180)) := by
    nlinarith [Real.pi_gt_three]
  have hA : min_point_to_polyline_distance_m [[((0 : ℝ), 0), (1 / 5000, 0)]]
      ((0 : ℝ), (0 : ℝ)) = some 0 := by
    rw [min_single_seg]
    show some (point_segment_distance_m 0 0 0 0 (1 / 5000) 0) = some 0
    rw [psd_left_of_horizontal 0 0 (1 / 5000) le_rfl (by norm_num)]
    norm_num
  have hB : min_point_to_polyline_distance_m [[((3 / 10000 : ℝ), 0), (1 / 2000, 0)]]
      ((0 : ℝ), (0 : ℝ)) =
      some (3 / 10000 * (6371008.8 * (Real.pi / 180))) := by
    rw [min_single_seg]
    show some (point_segment_distance_m 0 0 (3 / 10000) 0 (1 / 2000) 0) = _
    rw [psd_left_of_horizontal 0 (3 / 10000) (1 / 2000) (by norm_num) (by norm_num)]
    norm_num
  refine ⟨?_, ?_⟩
  · have hbop : matchesFor
        [(⟨[("OBJECTID", 1)], some [[(0, 0), (1 / 5000, 0)]]⟩,
          [[(0, 0), (1 / 5000, 0)]]),
         (⟨[("OBJECTID", 1)], some [[(3 / 10000, 0), (1 / 2000, 0)]]⟩,
          [[(3 / 10000, 0), (1 / 2000, 0)]])]
        ((0 : ℝ), (0 : ℝ)) 15 = [⟨some 1, 0⟩] := by
      simp only [matchesFor, hA, hB]
      rw [if_pos (by norm_num : (0 : ℝ) ≤ 15), if_neg (not_le.mpr hgt)]
      rfl
    unfold select_and_merge_point_routes
    dsimp only
    rw [env0_eval, clippedCandidates_pair_eval, hbop]
    rfl
  · rw [hB]
    exact hgt

theorem matcher_any_match_selection_witness :
    ((select_and_merge_point_routes id
        (fun _ => .ok [⟨[("OBJECTID", 1)], some [[(0, 0), (1 / 5000, 0)]]⟩,
          ⟨[("OBJECTID", 2)], some [[(3 / 10000, 0), (1 / 2000, 0)]]⟩])
        ((0 : ℝ), (0 : ℝ)) ((0 : ℝ), (0 : ℝ)) (1 / 2000) 15).merged_geometry.getD []).Perm
      (((clippedCandidates
          [⟨[("OBJECTID", 1)], some [[(0, 0), (1 / 5000, 0)]]⟩,
           ⟨[("OBJECTID", 2)], some [[(3 / 10000, 0), (1 / 2000, 0)]]⟩]
          (build_envelope_square_meters ((0 : ℝ), (0 : ℝ)) ((0 : ℝ), (0 : ℝ))
            (1 / 2000) none 0)).filter
        (fun rec => withinTol rec.2 ((0 : ℝ), (0 : ℝ)) 15 ||
          withinTol rec.2 ((0 : ℝ), (0 : ℝ)) 15)).flatMap (fun rec => rec.2)) :=
  matcher_any_match_selection id (fun l => List.Perm.refl l) _ _ _ _ _ _ rfl (by
    rw [env0_eval, clippedCandidates_pair_eval]
    refine List.Pairwise.cons ?_ (List.pairwise_singleton _ _)
    intro b hb
    rw [List.mem_singleton] at hb
    subst hb
    decide)

end ApexLoader
